import Mathlib

/-
Verification of the Lending Club cleaning and analysis pipeline.

The pipeline works on in-memory pandas tables.  A table is modelled as a
structure holding a list of rows together with one Boolean flag per column
recording whether that column is present; a cell of an absent column is
irrelevant (the projection step resets such cells to `none`).  A `none` cell
models a pandas null (NaN/None).  Floating-point numbers are modelled as
rationals; a `none` result of an aggregation models a floating NaN
(mean or median of an empty collection, or an undefined division).
Python exceptions are modelled by `Option`/`Except` results: a `none`
(or `Except.error`) result means the corresponding call raises.
-/

namespace LendingClub

/-- One loan record.  Cells are optional: `none` is a pandas null. -/
structure Row where
  grade : Option String
  sub_grade : Option String
  loan_status : Option String
  loan_amnt : Option ℚ
  int_rate_str : Option String
  int_rate : Option ℚ
  annual_inc : Option ℚ
  emp_length : Option String
  purpose : Option String
  is_default : Option ℤ
  emp_length_years : Option ℚ
  deriving DecidableEq, Repr

/-- An in-memory table: rows plus a presence flag for each column.
The interest-rate column is text when `int_rate_is_object` is true
(cells live in `int_rate_str`) and numeric otherwise (cells live in
`int_rate`). -/
structure Table where
  rows : List Row
  has_grade : Bool
  has_sub_grade : Bool
  has_loan_status : Bool
  has_loan_amnt : Bool
  has_int_rate : Bool
  int_rate_is_object : Bool
  has_annual_inc : Bool
  has_emp_length : Bool
  has_purpose : Bool
  has_is_default : Bool
  has_emp_length_years : Bool
  deriving DecidableEq, Repr

/-- Column-presence lookup by pandas column name. -/
def hasColumn (t : Table) (c : String) : Bool :=
  if c = "grade" then t.has_grade
  else if c = "sub_grade" then t.has_sub_grade
  else if c = "loan_status" then t.has_loan_status
  else if c = "loan_amnt" then t.has_loan_amnt
  else if c = "int_rate" then t.has_int_rate
  else if c = "annual_inc" then t.has_annual_inc
  else if c = "emp_length" then t.has_emp_length
  else if c = "purpose" then t.has_purpose
  else if c = "is_default" then t.has_is_default
  else if c = "emp_length_years" then t.has_emp_length_years
  else false

/-- Essential columns for the analysis (module constant of the cleaner). -/
def ESSENTIAL_COLUMNS : List String :=
  ["grade", "sub_grade", "loan_status", "loan_amnt",
   "int_rate", "annual_inc", "emp_length", "purpose"]

/-- Completed loan statuses for default analysis (module constant). -/
def COMPLETED_STATUSES : List String := ["Fully Paid", "Charged Off", "Default"]

/-- Map over a list in the `Option` monad: a `none` anywhere (a raised
exception in one cell) makes the whole step raise. -/
def mapOpt (f : α → Option β) : List α → Option (List β)
  | [] => some []
  | x :: xs =>
    match f x, mapOpt f xs with
    | some y, some ys => some (y :: ys)
    | _, _ => none

/-- Insert a rational into a sorted list (ascending). -/
def insertQ (x : ℚ) : List ℚ → List ℚ
  | [] => [x]
  | y :: ys => if x ≤ y then x :: y :: ys else y :: insertQ x ys

/-- Insertion sort, ascending. -/
def sortQ (l : List ℚ) : List ℚ := l.foldr insertQ []

/-- Pandas-style mean of the non-null values already extracted into `l`:
NaN (`none`) on an empty list. -/
def meanOpt (l : List ℚ) : Option ℚ :=
  if l.isEmpty then none else some (l.sum / l.length)

/-- Pandas-style median of the non-null values in `l`: the middle element
for odd length, average of the two middle elements for even length, NaN
(`none`) on an empty list. -/
def medianOpt (l : List ℚ) : Option ℚ :=
  if l.isEmpty then none
  else
    let s := sortQ l
    some ((s.getD ((s.length - 1) / 2) 0 + s.getD (s.length / 2) 0) / 2)

/-- Round a rational to the nearest integer, ties to even (the numpy and
pandas rounding used by `DataFrame.round`). -/
def roundHalfEven (x : ℚ) : ℤ :=
  let f := ⌊x⌋
  let r := x - f
  if r < 1/2 then f
  else if 1/2 < r then f + 1
  else if f % 2 = 0 then f else f + 1

/-- Round a rational to `d` decimal places, ties to even. -/
def roundQ (d : ℕ) (x : ℚ) : ℚ :=
  ((roundHalfEven (x * 10 ^ d) : ℚ)) / 10 ^ d

/-- Digits of a decimal numeral to a natural number. -/
def digitsToNat (cs : List Char) : ℕ :=
  cs.foldl (fun a c => a * 10 + (c.toNat - 48)) 0

/-- Drop leading and trailing whitespace from a character list. -/
def trimChars (cs : List Char) : List Char :=
  ((cs.dropWhile Char.isWhitespace).reverse.dropWhile Char.isWhitespace).reverse

/-- The result of a successful Python `float` conversion: a finite value
(kept as an exact rational), an infinity, or a nan. -/
inductive PyFloat where
  | finite (q : ℚ)
  | inf
  | neginf
  | nan
  deriving DecidableEq, Repr

/-- Case-insensitive match of `l` against the lowercase-letter pattern
`pat` (enough for the `inf`, `infinity` and `nan` words of the float
grammar). -/
def ciEq : List Char → List Char → Bool
  | [], [] => true
  | p :: ps, c :: cs => (c = p || c.toNat = p.toNat - 32) && ciEq ps cs
  | _, _ => false

/-- Whether the list has no two adjacent underscores. -/
def noAdjUnderscore : List Char → Bool
  | '_' :: '_' :: _ => false
  | _ :: rest => noAdjUnderscore rest
  | [] => true

/-- A valid digit run of a Python float literal: nonempty, digits with
single underscores strictly between digits (PEP 515 grouping). -/
def digitRun (l : List Char) : Bool :=
  !l.isEmpty && (l.headD '0').isDigit && (l.getLastD '0').isDigit &&
    l.all (fun c => c.isDigit || c = '_') && noAdjUnderscore l

/-- Drop the underscores of a digit run. -/
def dropUnd (l : List Char) : List Char :=
  l.filter (fun c => !(c = '_'))

/-- Split a character list at the first character satisfying `p`: the
part before and the part after, with the split character consumed;
`none` when no character satisfies `p`. -/
def splitAtFirst (p : Char → Bool) : List Char → Option (List Char × List Char)
  | [] => none
  | c :: rest =>
    if p c then some ([], rest)
    else (splitAtFirst p rest).map (fun q => (c :: q.1, q.2))

/-- The mantissa of a Python float literal — integer digits, optional
point, fractional digits, at least one digit overall — and its exact
rational value; `none` when malformed. -/
def mantissaVal (l : List Char) : Option ℚ :=
  match splitAtFirst (fun c => c = '.') l with
  | none => if digitRun l then some ((digitsToNat (dropUnd l) : ℚ)) else none
  | some (ip, fp) =>
    if (digitRun ip || ip.isEmpty) && (digitRun fp || fp.isEmpty) &&
        !(ip.isEmpty && fp.isEmpty) then
      some ((digitsToNat (dropUnd ip) : ℚ) +
        (digitsToNat (dropUnd fp) : ℚ) / 10 ^ (dropUnd fp).length)
    else none

/-- The exponent part after `e`/`E`: an optional sign then a digit run. -/
def exponentVal (l : List Char) : Option ℤ :=
  let signed : Bool × List Char :=
    match l with
    | '-' :: rest => (true, rest)
    | '+' :: rest => (false, rest)
    | _ => (false, l)
  if digitRun signed.2 then
    some (if signed.1 then -(digitsToNat (dropUnd signed.2) : ℤ)
      else (digitsToNat (dropUnd signed.2) : ℤ))
  else none

/-- Scale by a signed power of ten. -/
def scalePow10 (q : ℚ) (e : ℤ) : ℚ :=
  if 0 ≤ e then q * (10 : ℚ) ^ e.toNat else q / (10 : ℚ) ^ (-e).toNat

/-- Model of the Python `float` builtin on strings: surrounding
whitespace is dropped, then an optional sign is followed either by a
case-insensitive `inf`, `infinity` or `nan` word or by a decimal literal
with optional fraction, optional exponent and PEP 515 underscores (the
ASCII fragment of the grammar — the dataset's values are ASCII).
`none` models the raised `ValueError`.  Finite values are exact
rationals, the float-as-rational abstraction used throughout this
development, so no magnitude overflows to infinity. -/
def pyFloat (s : String) : Option PyFloat :=
  let cs := trimChars s.data
  let signed : Bool × List Char :=
    match cs with
    | '-' :: rest => (true, rest)
    | '+' :: rest => (false, rest)
    | _ => (false, cs)
  let body := signed.2
  if ciEq "inf".data body || ciEq "infinity".data body then
    some (if signed.1 then PyFloat.neginf else PyFloat.inf)
  else if ciEq "nan".data body then some PyFloat.nan
  else
    match splitAtFirst (fun c => c = 'e' || c = 'E') body with
    | none => (mantissaVal body).map (fun q =>
        PyFloat.finite (if signed.1 then -q else q))
    | some (mant, ex) =>
      match mantissaVal mant, exponentVal ex with
      | some q, some e =>
          some (PyFloat.finite (scalePow10 (if signed.1 then -q else q) e))
      | _, _ => none

/-- The table cell stored for a parsed float in the rational-cell model:
a finite value exactly, and `nan` as the null cell (pandas missing
values are floating nans).  The infinities also lie outside the
rational cell domain and are mapped to the null cell; no theorem below
depends on the cell stored for an infinite parse. -/
def PyFloat.toCell : PyFloat → Option ℚ
  | PyFloat.finite q => some q
  | PyFloat.nan => none
  | PyFloat.inf => none
  | PyFloat.neginf => none

/-- Whether `p` occurs as a contiguous run at the front of `s`. -/
def isPre (p s : List Char) : Bool :=
  match p, s with
  | [], _ => true
  | _ :: _, [] => false
  | a :: as_, b :: bs => a = b && isPre as_ bs

/-- Whether `p` occurs as a contiguous run anywhere in `s`
(the Python `in` test on strings). -/
def hasSub (p s : List Char) : Bool :=
  match s with
  | [] => p.isEmpty
  | _ :: tail => isPre p s || hasSub p tail

/-- Strip all trailing percent signs (`str.rstrip` with argument `%`). -/
def rstripPercent (s : String) : String :=
  ⟨(s.data.reverse.dropWhile (· = '%')).reverse⟩

/-- First whitespace-separated token of `s` (`str.split()[0]`); the empty
token models the `IndexError` on a whitespace-only string. -/
def firstToken (s : String) : List Char :=
  (s.data.dropWhile Char.isWhitespace).takeWhile (fun c => !c.isWhitespace)

/-- Step a of the cleaner: keep only the columns present in both the table
and the requested list; cells of dropped columns are reset. -/
def projectColumns (t : Table) (fc : List String) : Table :=
  let keep : String → Bool → Bool := fun c pres => pres && fc.contains c
  let kGrade := keep "grade" t.has_grade
  let kSub := keep "sub_grade" t.has_sub_grade
  let kStatus := keep "loan_status" t.has_loan_status
  let kAmnt := keep "loan_amnt" t.has_loan_amnt
  let kRate := keep "int_rate" t.has_int_rate
  let kInc := keep "annual_inc" t.has_annual_inc
  let kEmp := keep "emp_length" t.has_emp_length
  let kPurp := keep "purpose" t.has_purpose
  let kDef := keep "is_default" t.has_is_default
  let kEmpY := keep "emp_length_years" t.has_emp_length_years
  { rows := t.rows.map (fun r =>
      { grade := if kGrade then r.grade else none
        sub_grade := if kSub then r.sub_grade else none
        loan_status := if kStatus then r.loan_status else none
        loan_amnt := if kAmnt then r.loan_amnt else none
        int_rate_str := if kRate then r.int_rate_str else none
        int_rate := if kRate then r.int_rate else none
        annual_inc := if kInc then r.annual_inc else none
        emp_length := if kEmp then r.emp_length else none
        purpose := if kPurp then r.purpose else none
        is_default := if kDef then r.is_default else none
        emp_length_years := if kEmpY then r.emp_length_years else none })
    has_grade := kGrade
    has_sub_grade := kSub
    has_loan_status := kStatus
    has_loan_amnt := kAmnt
    has_int_rate := kRate
    int_rate_is_object := t.int_rate_is_object
    has_annual_inc := kInc
    has_emp_length := kEmp
    has_purpose := kPurp
    has_is_default := kDef
    has_emp_length_years := kEmpY }

/-- Whether a row has both critical cells non-null. -/
def hasCriticalFields (r : Row) : Bool :=
  !r.grade.isNone && !r.loan_status.isNone

/-- Step b of the cleaner: drop rows with a null grade or null status
(`dropna` with subset grade and status; raises `KeyError` when either
column is absent). -/
def dropnaCritical (t : Table) : Option Table :=
  if t.has_grade && t.has_loan_status then
    some { t with rows := t.rows.filter hasCriticalFields }
  else none

/-- Whether a row has a completed status (`isin` is false on a null). -/
def isCompletedRow (r : Row) : Bool :=
  match r.loan_status with
  | some s => COMPLETED_STATUSES.contains s
  | none => false

/-- Step c of the cleaner: keep only rows whose status is a completed
status. -/
def filterCompleted (t : Table) : Option Table :=
  if t.has_loan_status then
    some { t with rows := t.rows.filter isCompletedRow }
  else none

/-- Clean the interest-rate column: when the column dtype is object,
strip the trailing percent sign from each cell and parse it as a float
(a cell that fails to parse raises, a null stays null); no-op when the
column is already numeric.  Raises when the column is absent. -/
def clean_interest_rate (t : Table) : Option Table :=
  if !t.has_int_rate then none
  else if t.int_rate_is_object then
    match mapOpt (fun r =>
        match r.int_rate_str with
        | none => some { r with int_rate := none, int_rate_str := none }
        | some s => (pyFloat (rstripPercent s)).map (fun v =>
            { r with int_rate := PyFloat.toCell v, int_rate_str := none })) t.rows with
    | some rs => some { t with rows := rs, int_rate_is_object := false }
    | none => none
  else some t

/-- Add the binary default indicator to one row: 1 when the status is
`Charged Off` or `Default`, else 0. -/
def setDefaultIndicator (r : Row) : Row :=
  { r with is_default := some (
      if r.loan_status = some "Charged Off" ∨ r.loan_status = some "Default"
      then 1 else 0) }

/-- Table-level step: raises when the status column is absent. -/
def add_default_indicator (t : Table) : Option Table :=
  if !t.has_loan_status then none
  else some { t with
    has_is_default := true
    rows := t.rows.map setDefaultIndicator }

/-- Per-cell employment-length parser (the nested helper of
`clean_employment_length`).  The outer `some` means the cell is handled
without raising; the inner option is the produced value (`none` = NaN).
A `none` result means the Python code raises on this cell. -/
def parse_emp_length (os : Option String) : Option (Option ℚ) :=
  match os with
  | none => some none
  | some s =>
    if s = "< 1 year" then some (some (1/2))
    else if s = "10+ years" then some (some 10)
    else if hasSub "year".data s.data then
      let tok := firstToken s
      if tok.isEmpty then none
      else (pyFloat (String.mk tok)).map PyFloat.toCell
    else some none

/-- Clean the employment-length column into numeric years.  Raises when
the column is absent, or when any cell makes `parse_emp_length` raise. -/
def clean_employment_length (t : Table) : Option Table :=
  if !t.has_emp_length then none
  else
    (mapOpt (fun r =>
      (parse_emp_length r.emp_length).map (fun v =>
        { r with emp_length_years := v })) t.rows).map (fun rs =>
          { t with rows := rs, has_emp_length_years := true })

/-- Median of the non-null incomes of the rows whose grade cell equals `g`. -/
def gradeIncomeMedian (rows : List Row) (g : Option String) : Option ℚ :=
  medianOpt ((rows.filter (fun r => r.grade = g)).filterMap (fun r => r.annual_inc))

/-- The group-wise income transform applied to one row: a non-null
income is kept, a null income becomes the median income of the rows of
the same grade group, and a row with a null grade belongs to no group so
its income column becomes null. -/
def fillIncomeRow (allRows : List Row) (r : Row) : Row :=
  match r.grade with
  | none => { r with annual_inc := none }
  | some _ =>
    match r.annual_inc with
    | some v => { r with annual_inc := some v }
    | none => { r with annual_inc := gradeIncomeMedian allRows r.grade }

/-- The global-median fill applied to one employment-years cell. -/
def fillEmpRow (med : Option ℚ) (r : Row) : Row :=
  match r.emp_length_years with
  | some v => { r with emp_length_years := some v }
  | none => { r with emp_length_years := med }

/-- First phase of the missing-value handling: the group-wise income
imputation, a no-op when the income column is absent. -/
def imputeIncome (t : Table) : Table :=
  if t.has_annual_inc then
    { t with rows := t.rows.map (fillIncomeRow t.rows) }
  else t

/-- Second phase of the missing-value handling: fill null
employment-years with the global median of the column as it stands after
the first phase; a no-op when the column is absent. -/
def imputeEmpYears (t : Table) : Table :=
  if t.has_emp_length_years then
    let med := medianOpt (t.rows.filterMap (fun r => r.emp_length_years))
    { t with rows := t.rows.map (fillEmpRow med) }
  else t

/-- Handle missing values: fill a null income with the median income of
the rows sharing the same grade (a pandas group-wise transform), then
fill null employment-years with the single global median.  Raises when
the income column is present but the grade column is not (the group-by
would raise `KeyError`). -/
def handle_missing_values (t : Table) : Option Table :=
  if t.has_annual_inc && !t.has_grade then none
  else some (imputeEmpYears (imputeIncome t))

/-- The full cleaning pipeline, steps a through g in fixed order. -/
def clean_lending_club_data (df : Table)
    (focus_columns : Option (List String) := none) : Option Table :=
  let fc := focus_columns.getD ESSENTIAL_COLUMNS
  let t1 := projectColumns df fc
  (dropnaCritical t1).bind fun t2 =>
  (filterCompleted t2).bind fun t3 =>
  (if t3.has_int_rate then clean_interest_rate t3 else some t3).bind fun t4 =>
  (add_default_indicator t4).bind fun t5 =>
  (if t5.has_emp_length then clean_employment_length t5 else some t5).bind fun t6 =>
  handle_missing_values t6

/-- Insert a grade key into a sorted duplicate-free list of keys. -/
def insertKey (s : String) : List String → List String
  | [] => [s]
  | x :: xs =>
    if s = x then x :: xs
    else if s < x then s :: x :: xs
    else x :: insertKey s xs

/-- The sorted distinct non-null grade values of a row list (the group
keys of a pandas group-by on the grade column, which drops null keys and
sorts the keys ascending). -/
def gradeKeys (rows : List Row) : List String :=
  rows.foldr (fun r acc =>
    match r.grade with
    | some g => insertKey g acc
    | none => acc) []

/-- One row of the Grade Metrics table.  The two standard-deviation
columns of the source aggregation are not modelled (nothing downstream
reads them).  `risk_premium` is the column later written by the
risk-return analysis; it is absent (`none`) when the table leaves
`calculate_grade_metrics`. -/
structure GMRow where
  grade : String
  total_loans : ℕ
  num_defaults : ℚ
  default_rate : Option ℚ
  avg_loan_amount : Option ℚ
  median_loan_amount : Option ℚ
  total_volume : ℚ
  avg_interest_rate : Option ℚ
  median_interest_rate : Option ℚ
  avg_annual_income : Option ℚ
  median_annual_income : Option ℚ
  default_rate_pct : Option ℚ
  volume_share_pct : Option ℚ
  expected_return_pct : Option ℚ
  risk_premium : Option ℚ
  deriving DecidableEq, Repr

/-- The rows of the group with grade `g`. -/
def gradeGroup (rows : List Row) (g : String) : List Row :=
  rows.filter (fun r => r.grade = some g)

/-- The non-null default-flag values of a row list, as rationals. -/
def defaultsOf (grp : List Row) : List ℚ :=
  grp.filterMap (fun r => r.is_default.map (fun z => (z : ℚ)))

/-- Per-grade volume before the share computation: sum of the non-null
loan amounts of the group, rounded to 4 decimals with the rest of the
aggregation block. -/
def gradeVolume (rows : List Row) (g : String) : ℚ :=
  roundQ 4 (((gradeGroup rows g).filterMap (fun r => r.loan_amnt)).sum)

/-- Build one Grade Metrics row; `totalVol` is the table-wide sum of the
per-grade volumes (the denominator of the volume share). -/
def mkGMRow (rows : List Row) (totalVol : ℚ) (g : String) : GMRow :=
  let grp := gradeGroup rows g
  let defs : List ℚ := defaultsOf grp
  let amnts : List ℚ := grp.filterMap (fun r => r.loan_amnt)
  let rates : List ℚ := grp.filterMap (fun r => r.int_rate)
  let incs : List ℚ := grp.filterMap (fun r => r.annual_inc)
  let dr := (meanOpt defs).map (roundQ 4)
  let air := (meanOpt rates).map (roundQ 4)
  let vol := gradeVolume rows g
  { grade := g
    total_loans := defs.length
    num_defaults := roundQ 4 defs.sum
    default_rate := dr
    avg_loan_amount := (meanOpt amnts).map (roundQ 4)
    median_loan_amount := (medianOpt amnts).map (roundQ 4)
    total_volume := vol
    avg_interest_rate := air
    median_interest_rate := (medianOpt rates).map (roundQ 4)
    avg_annual_income := (meanOpt incs).map (roundQ 4)
    median_annual_income := (medianOpt incs).map (roundQ 4)
    default_rate_pct := dr.map (fun d => roundQ 2 (d * 100))
    volume_share_pct :=
      if totalVol = 0 then none else some (roundQ 2 (vol / totalVol * 100))
    expected_return_pct :=
      match air, dr with
      | some a, some d => some (roundQ 2 (a * (1 - d)))
      | _, _ => none
    risk_premium := none }

/-- Grade-level aggregation: group by grade and compute the metric
columns.  The input table is returned unchanged alongside the result
(the function does not mutate its argument); the result is `none` when a
column named in the aggregation dictionary is absent (`KeyError`). -/
def calculate_grade_metrics (df : Table) : Table × Option (List GMRow) :=
  (df,
    if df.has_grade && df.has_is_default && df.has_loan_amnt
        && df.has_int_rate && df.has_annual_inc then
      let keys := gradeKeys df.rows
      let totalVol := (keys.map (gradeVolume df.rows)).sum
      some (keys.map (mkGMRow df.rows totalVol))
    else none)

/-- The Portfolio Metrics record. -/
structure Portfolio where
  total_loans : ℕ
  total_volume : ℚ
  avg_loan_size : Option ℚ
  overall_default_rate : Option ℚ
  overall_default_rate_pct : Option ℚ
  avg_interest_rate : Option ℚ
  total_defaults : ℚ
  default_volume : ℚ
  max_grade_concentration_pct : Option ℚ
  high_risk_loans_pct : Option ℚ
  high_risk_volume_pct : Option ℚ
  deriving DecidableEq, Repr

/-- Portfolio-level aggregation over the full cleaned table.  The input
table is returned unchanged alongside the result; `none` when a column
the function reads is absent. -/
def calculate_portfolio_metrics (df : Table) : Table × Option Portfolio :=
  (df,
    if df.has_loan_amnt && df.has_is_default && df.has_grade && df.has_int_rate then
      let amnts := df.rows.filterMap (fun r => r.loan_amnt)
      let defs := df.rows.filterMap (fun r => r.is_default.map (fun z => (z : ℚ)))
      let grades := df.rows.filterMap (fun r => r.grade)
      let hrCount := df.rows.countP (fun r =>
        r.grade = some "F" || r.grade = some "G")
      let hrVolume := (df.rows.filter (fun r =>
        r.grade = some "F" || r.grade = some "G")).filterMap (fun r => r.loan_amnt) |>.sum
      some
        { total_loans := df.rows.length
          total_volume := amnts.sum
          avg_loan_size := meanOpt amnts
          overall_default_rate := meanOpt defs
          overall_default_rate_pct := (meanOpt defs).map (fun m => m * 100)
          avg_interest_rate := meanOpt (df.rows.filterMap (fun r => r.int_rate))
          total_defaults := defs.sum
          default_volume := ((df.rows.filter (fun r => r.is_default = some 1)).filterMap
            (fun r => r.loan_amnt)).sum
          max_grade_concentration_pct :=
            if grades.isEmpty then none
            else some ((((gradeKeys df.rows).map (fun g => grades.count g)).foldl
              max 0 : ℚ) / grades.length * 100)
          high_risk_loans_pct :=
            if df.rows.isEmpty then none
            else some ((hrCount : ℚ) / df.rows.length * 100)
          high_risk_volume_pct :=
            if amnts.sum = 0 then none
            else some (hrVolume / amnts.sum * 100)
          }
    else none)

/-- Mean of the first components of a list of pairs. -/
def meanFst (l : List (ℚ × ℚ)) : ℚ := (l.map Prod.fst).sum / l.length

/-- Mean of the second components of a list of pairs. -/
def meanSnd (l : List (ℚ × ℚ)) : ℚ := (l.map Prod.snd).sum / l.length

/-- Sum of products of deviations from the means (the covariance
numerator; the 1/(n-1) factors of the sample moments cancel in the
correlation, so they are left out everywhere). -/
def covSum (l : List (ℚ × ℚ)) : ℚ :=
  (l.map (fun p => (p.1 - meanFst l) * (p.2 - meanSnd l))).sum

/-- Sum of squared deviations of the first components. -/
def varFstSum (l : List (ℚ × ℚ)) : ℚ :=
  (l.map (fun p => (p.1 - meanFst l) ^ 2)).sum

/-- Sum of squared deviations of the second components. -/
def varSndSum (l : List (ℚ × ℚ)) : ℚ :=
  (l.map (fun p => (p.2 - meanSnd l) ^ 2)).sum

/-- Pearson correlation of a list of pairs (the pandas `Series.corr`
over the pairwise-complete observations).  The value is real because of
the square roots in the denominator; a zero denominator (fewer than two
pairs, or zero variance, where pandas yields NaN) gives 0 under the real
division convention. -/
noncomputable def pearson (l : List (ℚ × ℚ)) : ℝ :=
  (covSum l : ℝ) / (Real.sqrt (varFstSum l : ℝ) * Real.sqrt (varSndSum l : ℝ))

/-- First element of `l` whose `f`-value is defined and minimal
(`Series.idxmin`: nulls are skipped, ties resolve to the earliest row).
`none` when no element has a defined value. -/
def firstMinBy (f : α → Option ℚ) : List α → Option α
  | [] => none
  | x :: xs =>
    match f x with
    | none => firstMinBy f xs
    | some v =>
      match firstMinBy f xs with
      | none => some x
      | some y =>
        match f y with
        | some w => if w < v then some y else some x
        | none => some x

/-- First element of `l` whose `f`-value is defined and maximal
(`Series.idxmax`). -/
def firstMaxBy (f : α → Option ℚ) : List α → Option α
  | [] => none
  | x :: xs =>
    match f x with
    | none => firstMaxBy f xs
    | some v =>
      match firstMaxBy f xs with
      | none => some x
      | some y =>
        match f y with
        | some w => if v < w then some y else some x
        | none => some x

/-- The risk-return analysis record. -/
structure RiskAnalysis where
  risk_return_correlation : ℝ
  avg_risk_premium : Option ℚ
  worst_risk_return_grade : String
  best_risk_return_grade : String

/-- The pairwise-complete (default rate, average interest rate)
observations that `Series.corr` correlates. -/
def corrPairs (gm : List GMRow) : List (ℚ × ℚ) :=
  gm.filterMap (fun r =>
    match r.default_rate, r.avg_interest_rate with
    | some a, some b => some (a, b)
    | _, _ => none)

/-- The pairwise-complete (outcome-rate percentage, average interest
rate) observations: the pairs the specification describes the
correlation over. -/
def pctPairs (gm : List GMRow) : List (ℚ × ℚ) :=
  gm.filterMap (fun r =>
    match r.default_rate_pct, r.avg_interest_rate with
    | some p, some b => some (p, b)
    | _, _ => none)

/-- A Grade Metrics row is well formed when its percentage column is
exactly 100 times its rate column (both null together).  Rows produced
by the grade aggregation are well formed because the rate is already
rounded to 4 decimals, so the 2-decimal rounding of the percentage is
exact. -/
def GMWf (r : GMRow) : Prop :=
  (r.default_rate = none ∧ r.default_rate_pct = none) ∨
  ∃ d, r.default_rate = some d ∧ r.default_rate_pct = some (d * 100)

/-- Write the risk-premium column of one row: average interest rate
minus outcome-rate percentage, null when either operand is null. -/
def setRiskPremium (r : GMRow) : GMRow :=
  { r with risk_premium :=
      match r.avg_interest_rate, r.default_rate_pct with
      | some a, some p => some (a - p)
      | _, _ => none }

/-- Risk-return analysis.  The correlation is taken between the raw
default-rate column and the average-interest-rate column; the function
then writes a `risk_premium` column into its input table (the source
assigns the column without copying the frame first), and reports the
grades attaining the minimal and maximal premium.  The returned pair is
(the table as left by the call, the analysis record); the record is
`none` when every premium is null (`idxmin` raises). -/
noncomputable def analyze_risk_return_relationship
    (grade_metrics : List GMRow) : List GMRow × Option RiskAnalysis :=
  let correlation : ℝ := pearson (corrPairs grade_metrics)
  let gm := grade_metrics.map setRiskPremium
  let ana :=
    match firstMinBy (fun r : GMRow => r.risk_premium) gm,
          firstMaxBy (fun r : GMRow => r.risk_premium) gm with
    | some w, some b =>
      some { risk_return_correlation := correlation
             avg_risk_premium := meanOpt (gm.filterMap (fun r => r.risk_premium))
             worst_risk_return_grade := w.grade
             best_risk_return_grade := b.grade }
    | _, _ => none
  (gm, ana)

/-- The risk-threshold analysis record. -/
structure RiskThresholds where
  acceptable_default_rate : ℚ
  high_risk_grades : List String
  acceptable_grades : List String
  high_risk_exposure_pct : ℚ
  num_high_risk_grades : ℕ
  recommendation : String
  deriving DecidableEq, Repr

/-- Comparison of an optional percentage against the ceiling: a null
(NaN) compares false both ways, as in pandas. -/
def optGt (o : Option ℚ) (t : ℚ) : Bool :=
  match o with
  | some p => t < p
  | none => false

/-- Less-or-equal variant of `optGt`, false on a null. -/
def optLe (o : Option ℚ) (t : ℚ) : Bool :=
  match o with
  | some p => p ≤ t
  | none => false

/-- Risk-threshold classification with the acceptable default-rate
ceiling (default 15).  The input table is returned unchanged alongside
the record. -/
def identify_risk_thresholds (grade_metrics : List GMRow)
    (acceptable_default_rate : ℚ := 15) : List GMRow × RiskThresholds :=
  let high_risk_grades := (grade_metrics.filter (fun r =>
    optGt r.default_rate_pct acceptable_default_rate)).map (fun r => r.grade)
  let acceptable_grades := (grade_metrics.filter (fun r =>
    optLe r.default_rate_pct acceptable_default_rate)).map (fun r => r.grade)
  let high_risk_volume := ((grade_metrics.filter (fun r =>
    high_risk_grades.contains r.grade)).map (fun r => r.total_volume)).sum
  let total_volume := (grade_metrics.map (fun r => r.total_volume)).sum
  let high_risk_exposure_pct := high_risk_volume / total_volume * 100
  (grade_metrics,
    { acceptable_default_rate := acceptable_default_rate
      high_risk_grades := high_risk_grades
      acceptable_grades := acceptable_grades
      high_risk_exposure_pct := high_risk_exposure_pct
      num_high_risk_grades := high_risk_grades.length
      recommendation :=
        if 20 < high_risk_exposure_pct then "REVIEW_EXPOSURE" else "ACCEPTABLE" })

/-- Tags for the messages collected by the validation routine. -/
inductive CheckMsg where
  | missingRequiredColumns (cols : List String)
  | missingValuesInCritical
  | defaultIndicatorNotBinary
  | veryFewRows (n : ℕ)
  deriving DecidableEq, Repr

/-- The two ways `validate_cleaned_data` can raise: the `KeyError` of the
three-column indexing expression when a required column is absent, and
the aggregated `ValueError` listing the collected check messages. -/
inductive ValidationError where
  | keyError (missingCols : List String)
  | valueError (checks : List CheckMsg)
  deriving DecidableEq, Repr

/-- Validation of a cleaned table.  The routine first records a message
when required columns are missing, but the very next statement indexes
the frame by those three columns, which raises `KeyError` before the
collected messages are ever aggregated; with all three columns present it
collects the null, binary and row-count checks and raises one
`ValueError` listing them, or returns true when none fail. -/
def validate_cleaned_data (t : Table) : Except ValidationError Bool :=
  let required := ["grade", "loan_status", "is_default"]
  let missing := required.filter (fun c => !hasColumn t c)
  let checks0 : List CheckMsg :=
    if missing.isEmpty then [] else [CheckMsg.missingRequiredColumns missing]
  if !missing.isEmpty then
    Except.error (ValidationError.keyError missing)
  else
    let checks1 := checks0 ++
      (if t.rows.any (fun r =>
          r.grade.isNone || r.loan_status.isNone || r.is_default.isNone) then
        [CheckMsg.missingValuesInCritical] else [])
    let checks2 := checks1 ++
      (if t.has_is_default &&
          !(t.rows.all (fun r => r.is_default = some 0 || r.is_default = some 1)) then
        [CheckMsg.defaultIndicatorNotBinary] else [])
    let checks3 := checks2 ++
      (if t.rows.length < 1000 then [CheckMsg.veryFewRows t.rows.length] else [])
    if checks3.isEmpty then Except.ok true
    else Except.error (ValidationError.valueError checks3)

/-! Concrete tables used by the theorems below. -/

/-- A row with every cell null. -/
def emptyRow : Row := ⟨none, none, none, none, none, none, none, none, none, none, none⟩

/-- A raw row of the three-row scenario table: grade, status, amount and
a text-encoded interest rate. -/
def scenarioRow (g st : String) (amt : ℚ) (rate : String) : Row :=
  { emptyRow with
    grade := some g
    loan_status := some st
    loan_amnt := some amt
    int_rate_str := some rate }

/-- The three-row raw input table of the scenario: the interest-rate
column is text (object dtype); the income, employment and purpose
columns are absent. -/
def rawScenarioTable : Table where
  rows := [scenarioRow "A" "Fully Paid" 1000 "10%",
           scenarioRow "A" "Charged Off" 2000 "12%",
           scenarioRow "B" "Current" 500 "8%"]
  has_grade := true
  has_sub_grade := false
  has_loan_status := true
  has_loan_amnt := true
  has_int_rate := true
  int_rate_is_object := true
  has_annual_inc := false
  has_emp_length := false
  has_purpose := false
  has_is_default := false
  has_emp_length_years := false

/-- The cleaned scenario table (used to instantiate general theorems at
a concrete input). -/
def cleanedScenario : Table :=
  (clean_lending_club_data rawScenarioTable none).getD rawScenarioTable

/-- What the missing-value step does to one row: every column other than
annual_inc and emp_length_years is unchanged; a null income in a
grade-bearing row becomes the group median, a non-null income is kept,
and the step is a no-op on the income column when that column is absent. -/
def imputedRowSpec (t : Table) (r r' : Row) : Prop :=
  r'.grade = r.grade ∧ r'.sub_grade = r.sub_grade ∧
  r'.loan_status = r.loan_status ∧ r'.loan_amnt = r.loan_amnt ∧
  r'.int_rate_str = r.int_rate_str ∧ r'.int_rate = r.int_rate ∧
  r'.emp_length = r.emp_length ∧ r'.purpose = r.purpose ∧
  r'.is_default = r.is_default ∧
  (t.has_annual_inc = true → r.grade ≠ none → r.annual_inc = none →
    r'.annual_inc = gradeIncomeMedian t.rows r.grade) ∧
  (t.has_annual_inc = true → r.grade ≠ none → r.annual_inc ≠ none →
    r'.annual_inc = r.annual_inc) ∧
  (t.has_annual_inc = false → r'.annual_inc = r.annual_inc)

/-- A row with a given grade and optional income. -/
def incRow (g : String) (inc : Option ℚ) : Row :=
  { emptyRow with grade := some g, annual_inc := inc }

/-- A table for the income-imputation theorems: grade C has a null
income among two known incomes, grade D has only null incomes. -/
def incTable : Table where
  rows := [incRow "C" none, incRow "C" (some 50000), incRow "C" (some 70000),
           incRow "D" none]
  has_grade := true
  has_sub_grade := false
  has_loan_status := false
  has_loan_amnt := false
  has_int_rate := false
  int_rate_is_object := false
  has_annual_inc := true
  has_emp_length := false
  has_purpose := false
  has_is_default := false
  has_emp_length_years := false

/-- A table that violates two validation checks at once: the default
indicator column is absent and the row count is far below 1000; the
critical cells it has are non-null. -/
def valFailTable : Table where
  rows := List.replicate 5 { emptyRow with
    grade := some "A", loan_status := some "Fully Paid" }
  has_grade := true
  has_sub_grade := false
  has_loan_status := true
  has_loan_amnt := false
  has_int_rate := false
  int_rate_is_object := false
  has_annual_inc := false
  has_emp_length := false
  has_purpose := false
  has_is_default := false
  has_emp_length_years := false

/-- The C2 property of the threshold classification at ceiling `t`: a
grade is high-risk exactly when its outcome-rate percentage strictly
exceeds the ceiling, a grade exactly at the ceiling is acceptable, the
exposure percentage is the volume-weighted share of the high-risk set,
and the recommendation flag is REVIEW_EXPOSURE exactly when that
exposure strictly exceeds 20. -/
def riskThresholdClaim (gm : List GMRow) (t : ℚ) : Prop :=
  (∀ g : String, g ∈ (identify_risk_thresholds gm t).2.high_risk_grades ↔
    ∃ r ∈ gm, r.grade = g ∧ ∃ p, r.default_rate_pct = some p ∧ t < p) ∧
  (∀ r ∈ gm, r.default_rate_pct = some t →
    r.grade ∈ (identify_risk_thresholds gm t).2.acceptable_grades) ∧
  ((identify_risk_thresholds gm t).2.high_risk_exposure_pct =
    ((gm.filter (fun r =>
      (identify_risk_thresholds gm t).2.high_risk_grades.contains r.grade)).map
      (fun r => r.total_volume)).sum / (gm.map (fun r => r.total_volume)).sum * 100) ∧
  ((identify_risk_thresholds gm t).2.recommendation = "REVIEW_EXPOSURE" ↔
    20 < (identify_risk_thresholds gm t).2.high_risk_exposure_pct) ∧
  ((identify_risk_thresholds gm t).2.recommendation = "ACCEPTABLE" ↔
    ¬ 20 < (identify_risk_thresholds gm t).2.high_risk_exposure_pct)

/-- A Grade Metrics row holding only the fields the threshold analysis
reads: grade, outcome-rate percentage and volume. -/
def simpleGMRow (g : String) (pct : ℚ) (vol : ℚ) : GMRow where
  grade := g
  total_loans := 1
  num_defaults := 0
  default_rate := some (pct / 100)
  avg_loan_amount := none
  median_loan_amount := none
  total_volume := vol
  avg_interest_rate := none
  median_interest_rate := none
  avg_annual_income := none
  median_annual_income := none
  default_rate_pct := some pct
  volume_share_pct := none
  expected_return_pct := none
  risk_premium := none

/-- Three grades: one clearly acceptable, one exactly at the default
ceiling of 15, one above it with a quarter of the volume. -/
def gmThresh : List GMRow :=
  [simpleGMRow "A" 10 100, simpleGMRow "F" 15 50, simpleGMRow "G" 30 50]

/-- A one-grade metrics table with a defined interest rate and
percentage, so the risk-premium column the analysis writes differs from
the absent column it starts with. -/
def gmMut : List GMRow :=
  [{ simpleGMRow "A" 10 100 with avg_interest_rate := some 12 }]

/-- A cleaned-shape source row for the grade aggregation. -/
def aggRow (g : String) (d : ℤ) (amt : ℚ) (rate : ℚ) : Row :=
  { emptyRow with
    grade := some g
    is_default := some d
    loan_amnt := some amt
    int_rate := some rate
    annual_inc := some 50000 }

/-- A three-row cleaned-shape table with two grades, used to instantiate
the aggregation theorems. -/
def gmSrcTable : Table where
  rows := [aggRow "A" 0 1000 10, aggRow "A" 1 2000 12, aggRow "B" 0 500 8]
  has_grade := true
  has_sub_grade := false
  has_loan_status := true
  has_loan_amnt := true
  has_int_rate := true
  int_rate_is_object := false
  has_annual_inc := true
  has_emp_length := false
  has_purpose := false
  has_is_default := true
  has_emp_length_years := false

/-- Invariants of a table produced by the cleaning pipeline with focus
list `fc`, sufficient to re-run the pipeline without losing rows. -/
structure CleanedInv (fc : List String) (out : Table) : Prop where
  grade_col : out.has_grade = true
  grade_mem : fc.contains "grade" = true
  status_col : out.has_loan_status = true
  status_mem : fc.contains "loan_status" = true
  ir_flag : out.has_int_rate = true → out.int_rate_is_object = false
  rows_ok : ∀ r ∈ out.rows, r.grade ≠ none ∧
    (∃ s, r.loan_status = some s ∧ COMPLETED_STATUSES.contains s = true) ∧
    (out.has_emp_length = true → (parse_emp_length r.emp_length).isSome = true)

/-! Support lemmas about the plumbing functions. -/

theorem mapOpt_forall₂ {α β : Type _} {f : α → Option β} :
    ∀ {l : List α} {l' : List β}, mapOpt f l = some l' →
      List.Forall₂ (fun a b => f a = some b) l l'
  | [], l', h => by
    simp only [mapOpt, Option.some.injEq] at h
    subst h; exact List.Forall₂.nil
  | x :: xs, l', h => by
    unfold mapOpt at h
    cases hfx : f x with
    | none => rw [hfx] at h; exact absurd h (by simp)
    | some y =>
      rw [hfx] at h
      cases hm : mapOpt f xs with
      | none => rw [hm] at h; exact absurd h (by simp)
      | some ys =>
        rw [hm] at h
        simp only [Option.some.injEq] at h
        subst h
        exact List.Forall₂.cons hfx (mapOpt_forall₂ hm)

theorem mapOpt_length {α β : Type _} {f : α → Option β} {l : List α}
    {l' : List β} (h : mapOpt f l = some l') : l'.length = l.length :=
  (mapOpt_forall₂ h).length_eq.symm

theorem forall₂_mem_right {α β : Type _} {p : α → β → Prop} {l : List α}
    {l' : List β} (h : List.Forall₂ p l l') :
    ∀ b ∈ l', ∃ a ∈ l, p a b := by
  induction h with
  | nil => intro b hb; cases hb
  | cons hab _ ih =>
    intro b hb
    rcases List.mem_cons.mp hb with rfl | hb
    · exact ⟨_, List.mem_cons_self _ _, hab⟩
    · obtain ⟨a, ha, hfa⟩ := ih b hb
      exact ⟨a, List.mem_cons_of_mem _ ha, hfa⟩

theorem forall₂_mem_left {α β : Type _} {p : α → β → Prop} {l : List α}
    {l' : List β} (h : List.Forall₂ p l l') :
    ∀ a ∈ l, ∃ b ∈ l', p a b := by
  induction h with
  | nil => intro a ha; cases ha
  | cons hab _ ih =>
    intro a ha
    rcases List.mem_cons.mp ha with rfl | ha
    · exact ⟨_, List.mem_cons_self _ _, hab⟩
    · obtain ⟨b, hb, hfb⟩ := ih a ha
      exact ⟨b, List.mem_cons_of_mem _ hb, hfb⟩

theorem mapOpt_mem_right {α β : Type _} {f : α → Option β} {l : List α}
    {l' : List β} (h : mapOpt f l = some l') :
    ∀ b ∈ l', ∃ a ∈ l, f a = some b :=
  forall₂_mem_right (mapOpt_forall₂ h)

theorem mapOpt_mem_left {α β : Type _} {f : α → Option β} {l : List α}
    {l' : List β} (h : mapOpt f l = some l') :
    ∀ a ∈ l, ∃ b ∈ l', f a = some b :=
  forall₂_mem_left (mapOpt_forall₂ h)

theorem mapOpt_isSome_of_forall {α β : Type _} {f : α → Option β} :
    ∀ {l : List α}, (∀ a ∈ l, (f a).isSome) → (mapOpt f l).isSome
  | [], _ => by simp [mapOpt]
  | x :: xs, h => by
    have hx := h x (List.mem_cons_self _ _)
    have hxs := mapOpt_isSome_of_forall (fun a ha => h a (List.mem_cons_of_mem _ ha))
    unfold mapOpt
    cases hfx : f x with
    | none => rw [hfx] at hx; cases hx
    | some y =>
      cases hm : mapOpt f xs with
      | none => rw [hm] at hxs; cases hxs
      | some ys => simp

/-! Shape lemmas for the per-row cleaning functions. -/

theorem fillIncomeRow_shape (a : List Row) (r : Row) :
    ∃ v, fillIncomeRow a r = { r with annual_inc := v } := by
  cases hg : r.grade with
  | none => exact ⟨none, by simp [fillIncomeRow, hg]⟩
  | some g =>
    cases hi : r.annual_inc with
    | none =>
      exact ⟨gradeIncomeMedian a (some g), by simp [fillIncomeRow, hg, hi]⟩
    | some v => exact ⟨some v, by simp [fillIncomeRow, hg, hi]⟩

theorem fillEmpRow_shape (m : Option ℚ) (r : Row) :
    ∃ v, fillEmpRow m r = { r with emp_length_years := v } := by
  cases he : r.emp_length_years with
  | none => exact ⟨m, by simp [fillEmpRow, he]⟩
  | some v => exact ⟨some v, by simp [fillEmpRow, he]⟩

theorem imputeIncome_shape (t : Table) :
    ∀ x ∈ (imputeIncome t).rows, ∃ y ∈ t.rows, ∃ v,
      x = { y with annual_inc := v } := by
  intro x hx
  unfold imputeIncome at hx
  split at hx
  · simp only [List.mem_map] at hx
    obtain ⟨y, hy, rfl⟩ := hx
    obtain ⟨v, hv⟩ := fillIncomeRow_shape t.rows y
    exact ⟨y, hy, v, hv⟩
  · exact ⟨x, hx, x.annual_inc, rfl⟩

theorem imputeEmpYears_shape (t : Table) :
    ∀ x ∈ (imputeEmpYears t).rows, ∃ y ∈ t.rows, ∃ w,
      x = { y with emp_length_years := w } := by
  intro x hx
  unfold imputeEmpYears at hx
  split at hx
  · simp only [List.mem_map] at hx
    obtain ⟨y, hy, rfl⟩ := hx
    obtain ⟨w, hw⟩ := fillEmpRow_shape _ y
    exact ⟨y, hy, w, hw⟩
  · exact ⟨x, hx, x.emp_length_years, rfl⟩

theorem handle_missing_values_shape {t t' : Table}
    (h : handle_missing_values t = some t') :
    ∀ x ∈ t'.rows, ∃ y ∈ t.rows, ∃ v w,
      x = { y with annual_inc := v, emp_length_years := w } := by
  unfold handle_missing_values at h
  split at h
  · exact absurd h (by simp)
  · simp only [Option.some.injEq] at h
    subst h
    intro x hx
    obtain ⟨y1, hy1, w, hw⟩ := imputeEmpYears_shape _ x hx
    obtain ⟨y, hy, v, hv⟩ := imputeIncome_shape _ y1 hy1
    refine ⟨y, hy, v, w, ?_⟩
    rw [hw, hv]

theorem clean_employment_length_shape {t t' : Table}
    (h : clean_employment_length t = some t') :
    ∀ x ∈ t'.rows, ∃ y ∈ t.rows, ∃ v,
      x = { y with emp_length_years := v } := by
  unfold clean_employment_length at h
  split at h
  · exact absurd h (by simp)
  · cases hm : mapOpt (fun r =>
        (parse_emp_length r.emp_length).map (fun v =>
          { r with emp_length_years := v })) t.rows with
    | none => rw [hm] at h; exact absurd h (by simp)
    | some rs =>
      rw [hm] at h
      simp only [Option.map_some', Option.some.injEq] at h
      subst h
      intro x hx
      simp only at hx
      obtain ⟨y, hy, hfy⟩ := mapOpt_mem_right hm x hx
      cases hp : parse_emp_length y.emp_length with
      | none => rw [hp] at hfy; exact absurd hfy (by simp)
      | some v =>
        rw [hp] at hfy
        simp only [Option.map_some', Option.some.injEq] at hfy
        exact ⟨y, hy, v, hfy.symm⟩

theorem add_default_indicator_flag {t t' : Table}
    (h : add_default_indicator t = some t') :
    ∀ x ∈ t'.rows,
      (x.is_default = some 0 ∨ x.is_default = some 1) ∧
      (x.is_default = some 1 ↔
        (x.loan_status = some "Charged Off" ∨ x.loan_status = some "Default")) := by
  unfold add_default_indicator at h
  split at h
  · exact absurd h (by simp)
  · simp only [Option.some.injEq] at h
    subst h
    intro x hx
    simp only [List.mem_map] at hx
    obtain ⟨y, _, rfl⟩ := hx
    by_cases hco : (y.loan_status = some "Charged Off" ∨ y.loan_status = some "Default")
    · simp [setDefaultIndicator, hco]
    · simp [setDefaultIndicator, hco]

set_option maxRecDepth 100000 in
/-- C9: on the three-row scenario table, cleaning drops exactly the
`Current` row, leaves 2 rows, parses the interest rates to 10 and 12,
and the grade-A mean of the default flag is 1/2. -/
theorem scenario_clean_three_rows :
    ((clean_lending_club_data rawScenarioTable none).map (fun out =>
      (out.rows.length,
       out.rows.map (fun r => r.int_rate),
       out.rows.map (fun r => r.loan_status),
       (let a := out.rows.filter (fun r => r.grade = some "A")
        ((a.filterMap (fun r => r.is_default.map (fun z => (z : ℚ)))).sum
          / (a.length : ℚ))))))
    = some (2, [some 10, some 12],
            [some "Fully Paid", some "Charged Off"], 1/2) := by
  with_unfolding_all decide

/-- C1: in every table produced by the cleaning pipeline, the default
flag of every row is 0 or 1, and it is 1 exactly when the status of the
row is Charged Off or Default; the flag is a function of the status
alone. -/
theorem cleaned_is_default_binary_iff_status
    (df : Table) (focus : Option (List String)) (out : Table)
    (h : clean_lending_club_data df focus = some out)
    (r : Row) (hr : r ∈ out.rows) :
    (r.is_default = some 0 ∨ r.is_default = some 1) ∧
    (r.is_default = some 1 ↔
      (r.loan_status = some "Charged Off" ∨ r.loan_status = some "Default")) := by
  unfold clean_lending_club_data at h
  rw [Option.bind_eq_some] at h
  obtain ⟨t2, _, h⟩ := h
  rw [Option.bind_eq_some] at h
  obtain ⟨t3, _, h⟩ := h
  rw [Option.bind_eq_some] at h
  obtain ⟨t4, _, h⟩ := h
  rw [Option.bind_eq_some] at h
  obtain ⟨t5, h5, h⟩ := h
  rw [Option.bind_eq_some] at h
  obtain ⟨t6, h6, h7⟩ := h
  have H5 := add_default_indicator_flag h5
  have H6 : ∀ x ∈ t6.rows,
      (x.is_default = some 0 ∨ x.is_default = some 1) ∧
      (x.is_default = some 1 ↔
        (x.loan_status = some "Charged Off" ∨ x.loan_status = some "Default")) := by
    intro x hx
    split at h6
    · obtain ⟨y, hy, v, hv⟩ := clean_employment_length_shape h6 x hx
      subst hv
      simpa using H5 y hy
    · obtain rfl : t5 = t6 := by simpa using h6
      exact H5 x hx
  obtain ⟨y, hy, v, w, hvw⟩ := handle_missing_values_shape h7 r hr
  subst hvw
  simpa using H6 y hy

set_option maxRecDepth 100000 in
/-- Witness for C1 at the cleaned scenario table and its second row. -/
theorem cleaned_is_default_binary_iff_status_witness :
    ((cleanedScenario.rows.getD 1 emptyRow).is_default = some 0 ∨
      (cleanedScenario.rows.getD 1 emptyRow).is_default = some 1) ∧
    ((cleanedScenario.rows.getD 1 emptyRow).is_default = some 1 ↔
      ((cleanedScenario.rows.getD 1 emptyRow).loan_status = some "Charged Off" ∨
       (cleanedScenario.rows.getD 1 emptyRow).loan_status = some "Default")) :=
  cleaned_is_default_binary_iff_status rawScenarioTable none cleanedScenario
    (by with_unfolding_all rfl)
    (cleanedScenario.rows.getD 1 emptyRow)
    (by with_unfolding_all decide)

theorem gradeIncomeMedian_eq_none {rows : List Row} {g : String}
    (h : ∀ x ∈ rows, x.grade = some g → x.annual_inc = none) :
    gradeIncomeMedian rows (some g) = none := by
  unfold gradeIncomeMedian
  have hnil : (rows.filter (fun r => r.grade = some g)).filterMap
      (fun r => r.annual_inc) = [] := by
    rw [List.filterMap_eq_nil]
    intro x hx
    exact h x (List.mem_of_mem_filter hx) (by simpa using (List.mem_filter.mp hx).2)
  rw [hnil]
  rfl

theorem imputeIncome_get? (t : Table) (i : ℕ) (r : Row)
    (h : t.rows.get? i = some r) :
    (imputeIncome t).rows.get? i =
      some (if t.has_annual_inc then fillIncomeRow t.rows r else r) := by
  unfold imputeIncome
  by_cases hc : t.has_annual_inc
  · rw [if_pos hc, if_pos hc]
    simp only [List.get?_map, h, Option.map_some']
  · rw [if_neg hc, if_neg hc]
    exact h

theorem imputeEmpYears_get? (t : Table) (i : ℕ) (r : Row)
    (h : t.rows.get? i = some r) :
    (imputeEmpYears t).rows.get? i =
      some (if t.has_emp_length_years then
        fillEmpRow (medianOpt (t.rows.filterMap (fun x => x.emp_length_years))) r
      else r) := by
  unfold imputeEmpYears
  by_cases hc : t.has_emp_length_years
  · rw [if_pos hc, if_pos hc]
    simp only [List.get?_map, h, Option.map_some']
  · rw [if_neg hc, if_neg hc]
    exact h

theorem imputeIncome_rows_length (t : Table) :
    (imputeIncome t).rows.length = t.rows.length := by
  unfold imputeIncome; split <;> simp

theorem imputeEmpYears_rows_length (t : Table) :
    (imputeEmpYears t).rows.length = t.rows.length := by
  unfold imputeEmpYears; split <;> simp

/-- C10: the missing-value step keeps the row count, fills a null income
from the median of the same-grade group, keeps every other column
unchanged, and leaves the income null when the whole grade group has
only null incomes. -/
theorem handle_missing_values_spec (t t' : Table)
    (h : handle_missing_values t = some t') :
    t'.rows.length = t.rows.length ∧
    (∀ i r, t.rows.get? i = some r →
      ∃ r', t'.rows.get? i = some r' ∧ imputedRowSpec t r r') ∧
    (∀ g, (∀ x ∈ t.rows, x.grade = some g → x.annual_inc = none) →
      ∀ i r, t.rows.get? i = some r → r.grade = some g → r.annual_inc = none →
        ∃ r', t'.rows.get? i = some r' ∧ r'.annual_inc = none) := by
  unfold handle_missing_values at h
  split at h
  · exact absurd h (by simp)
  · simp only [Option.some.injEq] at h
    subst h
    have hperrow : ∀ i r, t.rows.get? i = some r →
        ∃ r', (imputeEmpYears (imputeIncome t)).rows.get? i = some r' ∧
          imputedRowSpec t r r' := by
      intro i r hir
      have h1 := imputeIncome_get? t i r hir
      have h2 := imputeEmpYears_get? (imputeIncome t) i _ h1
      refine ⟨_, h2, ?_⟩
      have hflag : (imputeIncome t).has_emp_length_years = t.has_emp_length_years := by
        unfold imputeIncome; split <;> rfl
      set r1 : Row := if t.has_annual_inc then fillIncomeRow t.rows r else r with hr1
      have hr1inc : t.has_annual_inc = true → r1 = fillIncomeRow t.rows r := by
        intro hc; rw [hr1, if_pos hc]
      have hr1no : t.has_annual_inc = false → r1 = r := by
        intro hc; rw [hr1, if_neg (by simp [hc])]
      obtain ⟨w, hw⟩ := fillEmpRow_shape
        (medianOpt ((imputeIncome t).rows.filterMap (fun x => x.emp_length_years))) r1
      -- the final row agrees with r1 on every column but emp_length_years
      have hshape : ∃ w', (if (imputeIncome t).has_emp_length_years then
          fillEmpRow (medianOpt ((imputeIncome t).rows.filterMap
            (fun x => x.emp_length_years))) r1 else r1) =
          { r1 with emp_length_years := w' } := by
        by_cases hc : (imputeIncome t).has_emp_length_years
        · rw [if_pos hc]; exact ⟨w, hw⟩
        · rw [if_neg hc]; exact ⟨r1.emp_length_years, rfl⟩
      obtain ⟨w', hw'⟩ := hshape
      -- r1 agrees with r on every column but annual_inc
      have hshape1 : ∃ v, r1 = { r with annual_inc := v } := by
        by_cases hc : t.has_annual_inc
        · rw [hr1inc hc]; exact fillIncomeRow_shape t.rows r
        · rw [hr1no (by simpa using hc)]; exact ⟨r.annual_inc, rfl⟩
      obtain ⟨v, hv⟩ := hshape1
      have hv1 : r1.annual_inc = v := by rw [hv]
      rw [hw', hv]
      unfold imputedRowSpec
      refine ⟨rfl, rfl, rfl, rfl, rfl, rfl, rfl, rfl, rfl, ?_, ?_, ?_⟩
      · -- null income in a grade-bearing row becomes the group median
        intro hc hg hnone
        have hmv : r1.annual_inc = gradeIncomeMedian t.rows r.grade := by
          rw [hr1inc hc]
          cases hgr : r.grade with
          | none => exact absurd hgr hg
          | some g => simp [fillIncomeRow, hgr, hnone]
        rw [hv1] at hmv
        simpa using hmv
      · -- a non-null income is kept
        intro hc hg hsome
        have hmv : r1.annual_inc = r.annual_inc := by
          rw [hr1inc hc]
          cases hgr : r.grade with
          | none => exact absurd hgr hg
          | some g =>
            cases hin : r.annual_inc with
            | none => exact absurd hin hsome
            | some v0 => simp [fillIncomeRow, hgr, hin]
        rw [hv1] at hmv
        simpa using hmv
      · -- income column absent: income untouched
        intro hc
        have hmv : r1.annual_inc = r.annual_inc := by
          rw [hr1no hc]
        rw [hv1] at hmv
        simpa using hmv
    refine ⟨?_, hperrow, ?_⟩
    · rw [imputeEmpYears_rows_length, imputeIncome_rows_length]
    · intro g hall i r hir hg hnone
      obtain ⟨r', hr', hspec⟩ := hperrow i r hir
      refine ⟨r', hr', ?_⟩
      by_cases hc : t.has_annual_inc
      · have hmed := hspec.2.2.2.2.2.2.2.2.2.1 hc
          (by rw [hg]; exact fun hcon => Option.noConfusion hcon) hnone
        rw [hmed, hg]
        exact gradeIncomeMedian_eq_none hall
      · have hkeep := hspec.2.2.2.2.2.2.2.2.2.2.2 (by simpa using hc)
        rw [hkeep, hnone]

/-- Witness for C10 at the concrete income table and its first row. -/
theorem handle_missing_values_spec_witness :
    ∃ r', ((handle_missing_values incTable).getD incTable).rows.get? 0 = some r' ∧
      imputedRowSpec incTable (incRow "C" none) r' :=
  (handle_missing_values_spec incTable
      ((handle_missing_values incTable).getD incTable)
      (by with_unfolding_all rfl)).2.1 0
    (incRow "C" none) (by with_unfolding_all decide)

/-- C8: on a table that violates both the required-column check and the
row-count floor, validation raises the `KeyError` of the three-column
indexing expression, naming only the missing column, instead of the
aggregated error listing every violated check. -/
theorem validate_keyerror_preempts_aggregation :
    validate_cleaned_data valFailTable =
      Except.error (ValidationError.keyError ["is_default"]) ∧
    valFailTable.rows.length < 1000 :=
  ⟨by with_unfolding_all rfl, by decide⟩

theorem optGt_eq_true_iff {o : Option ℚ} {t : ℚ} :
    optGt o t = true ↔ ∃ p, o = some p ∧ t < p := by
  cases o <;> simp [optGt]

theorem optLe_eq_true_iff {o : Option ℚ} {t : ℚ} :
    optLe o t = true ↔ ∃ p, o = some p ∧ p ≤ t := by
  cases o <;> simp [optLe]

/-- C2: the threshold classification uses a strict comparison against
the ceiling, with the boundary grade acceptable, and flags
REVIEW_EXPOSURE exactly when the high-risk volume share strictly
exceeds 20 percent.  The hypothesis keeps the total volume away from the
float division-by-zero corner. -/
theorem identify_risk_thresholds_boundary (gm : List GMRow) (t : ℚ)
    (hT : (gm.map (fun r => r.total_volume)).sum ≠ 0) :
    riskThresholdClaim gm t := by
  refine ⟨?_, ?_, rfl, ?_, ?_⟩
  · intro g
    constructor
    · intro hg
      obtain ⟨r, hrf, rfl⟩ := List.mem_map.mp hg
      obtain ⟨hr, hgt⟩ := List.mem_filter.mp hrf
      exact ⟨r, hr, rfl, optGt_eq_true_iff.mp hgt⟩
    · rintro ⟨r, hr, rfl, p, hp, hlt⟩
      exact List.mem_map.mpr ⟨r,
        List.mem_filter.mpr ⟨hr, optGt_eq_true_iff.mpr ⟨p, hp, hlt⟩⟩, rfl⟩
  · intro r hr hpct
    exact List.mem_map.mpr ⟨r,
      List.mem_filter.mpr ⟨hr, optLe_eq_true_iff.mpr ⟨t, hpct, le_refl t⟩⟩, rfl⟩
  · unfold identify_risk_thresholds
    dsimp only
    split
    · rename_i hc
      exact ⟨fun _ => hc, fun _ => rfl⟩
    · rename_i hc
      exact ⟨fun h => absurd h (by decide), fun h => absurd h hc⟩
  · unfold identify_risk_thresholds
    dsimp only
    split
    · rename_i hc
      exact ⟨fun h => absurd h (by decide), fun hn => absurd hc hn⟩
    · rename_i hc
      exact ⟨fun _ => hc, fun _ => rfl⟩

/-- Witness for C2 at a concrete three-grade table with ceiling 15. -/
theorem identify_risk_thresholds_boundary_witness :
    riskThresholdClaim gmThresh 15 :=
  identify_risk_thresholds_boundary gmThresh 15 (by with_unfolding_all decide)

theorem setRiskPremium_idem (r : GMRow) :
    setRiskPremium (setRiskPremium r) = setRiskPremium r := rfl

theorem map_setRiskPremium_idem (gm : List GMRow) :
    (gm.map setRiskPremium).map setRiskPremium = gm.map setRiskPremium := by
  rw [List.map_map]
  exact congrArg (fun f => List.map f gm) (funext setRiskPremium_idem)

theorem corrPairs_map_setRiskPremium (gm : List GMRow) :
    corrPairs (gm.map setRiskPremium) = corrPairs gm := by
  unfold corrPairs
  rw [List.filterMap_map]
  rfl

/-- C4 counterexample: the risk-return analysis does not leave its input
table unchanged; on a one-grade table it writes the risk-premium column
into the table it was given. -/
theorem analyze_risk_return_mutates_input :
    (analyze_risk_return_relationship gmMut).1 ≠ gmMut := by
  with_unfolding_all decide

/-- C4 amended: grade, portfolio and threshold aggregation leave their
input unchanged; the risk-return analysis writes exactly the
risk-premium column into its input (every other field is unchanged), the
write is idempotent, and a second call on the table left by the first
returns the identical pair. -/
theorem analyzer_frame_amended :
    (∀ df : Table, (calculate_grade_metrics df).1 = df) ∧
    (∀ df : Table, (calculate_portfolio_metrics df).1 = df) ∧
    (∀ (gm : List GMRow) (t : ℚ), (identify_risk_thresholds gm t).1 = gm) ∧
    (∀ gm : List GMRow, ∀ r ∈ (analyze_risk_return_relationship gm).1,
      ∃ r0 ∈ gm, r = { r0 with risk_premium := r.risk_premium }) ∧
    (∀ gm : List GMRow,
      analyze_risk_return_relationship ((analyze_risk_return_relationship gm).1) =
        ((analyze_risk_return_relationship gm).1,
         (analyze_risk_return_relationship gm).2)) := by
  refine ⟨fun _ => rfl, fun _ => rfl, fun _ _ => rfl, ?_, ?_⟩
  · intro gm r hr
    obtain ⟨r0, hr0, rfl⟩ := List.mem_map.mp hr
    exact ⟨r0, hr0, rfl⟩
  · intro gm
    unfold analyze_risk_return_relationship
    dsimp only
    rw [corrPairs_map_setRiskPremium, map_setRiskPremium_idem]

/-! Rounding error bounds. -/

theorem abs_roundHalfEven_sub_le (x : ℚ) :
    |(roundHalfEven x : ℚ) - x| ≤ 1/2 := by
  unfold roundHalfEven
  dsimp only
  have h0 : (0:ℚ) ≤ x - ⌊x⌋ := sub_nonneg.mpr (Int.floor_le x)
  have h1 : x - ⌊x⌋ < 1 := by
    have := Int.lt_floor_add_one x
    push_cast at this ⊢
    linarith
  split
  · rename_i hlt
    rw [abs_le]
    constructor <;> linarith
  · split
    · rename_i hx hgt
      rw [abs_le]
      push_cast
      constructor <;> linarith
    · rename_i hx1 hx2
      have heq : x - ⌊x⌋ = 1/2 := by linarith
      split
      · rw [abs_le]; constructor <;> linarith
      · rw [abs_le]; push_cast; constructor <;> linarith

theorem abs_roundQ_two_sub_le (x : ℚ) : |roundQ 2 x - x| ≤ 1/200 := by
  unfold roundQ
  have h := abs_roundHalfEven_sub_le (x * 10 ^ 2)
  have hrw : (roundHalfEven (x * 10 ^ 2) : ℚ) / 10 ^ 2 - x =
      ((roundHalfEven (x * 10 ^ 2) : ℚ) - x * 10 ^ 2) / 10 ^ 2 := by
    ring
  rw [hrw, abs_div]
  have h100 : |((10:ℚ) ^ 2 : ℚ)| = 100 := by norm_num
  rw [h100]
  rw [div_le_iff₀ (by norm_num : (0:ℚ) < 100)]
  linarith

theorem abs_sum_map_roundQ_sub (l : List ℚ) :
    |(l.map (roundQ 2)).sum - l.sum| ≤ (l.length : ℚ) * (1/200) := by
  induction l with
  | nil => simp
  | cons x xs ih =>
    simp only [List.map_cons, List.sum_cons, List.length_cons]
    have hx := abs_roundQ_two_sub_le x
    calc |roundQ 2 x + (xs.map (roundQ 2)).sum - (x + xs.sum)|
        = |(roundQ 2 x - x) + ((xs.map (roundQ 2)).sum - xs.sum)| := by ring_nf
      _ ≤ |roundQ 2 x - x| + |(xs.map (roundQ 2)).sum - xs.sum| := abs_add _ _
      _ ≤ 1/200 + (xs.length : ℚ) * (1/200) := add_le_add hx ih
      _ = ((xs.length + 1 : ℕ) : ℚ) * (1/200) := by push_cast; ring

theorem filterMap_eq_map_of_some {α β : Type _} {f : α → Option β} {g : α → β}
    (h : ∀ a, f a = some (g a)) : ∀ l : List α, l.filterMap f = l.map g
  | [] => by simp
  | x :: xs => by
    rw [List.filterMap_cons, h x, List.map_cons,
      filterMap_eq_map_of_some h xs]

/-- C6: for a table whose grade aggregation succeeds with a positive
total volume, every volume share is defined and the shares sum to 100 up
to the half-unit-in-the-last-place error of rounding each share to two
decimals. -/
theorem volume_shares_sum_to_100 (t : Table) (gm : List GMRow)
    (hgm : (calculate_grade_metrics t).2 = some gm) (hne : gm ≠ [])
    (hpos : 0 < (gm.map (fun r => r.total_volume)).sum) :
    (gm.filterMap (fun r => r.volume_share_pct)).length = gm.length ∧
    |(gm.filterMap (fun r => r.volume_share_pct)).sum - 100| ≤
      (gm.length : ℚ) * (1/200) := by
  unfold calculate_grade_metrics at hgm
  dsimp only at hgm
  split at hgm
  swap
  · exact absurd hgm (by simp)
  simp only [Option.some.injEq] at hgm
  subst hgm
  set keys := gradeKeys t.rows with hkeys
  set T := (keys.map (gradeVolume t.rows)).sum with hT
  have hvol : (keys.map (mkGMRow t.rows T)).map (fun r => r.total_volume) =
      keys.map (gradeVolume t.rows) := by
    rw [List.map_map]
    rfl
  rw [hvol] at hpos
  have hTpos : 0 < T := hpos
  have hTne : T ≠ 0 := ne_of_gt hTpos
  have hcell : ∀ k, (mkGMRow t.rows T k).volume_share_pct =
      some (roundQ 2 (gradeVolume t.rows k / T * 100)) := by
    intro k
    show (if T = 0 then none
      else some (roundQ 2 (gradeVolume t.rows k / T * 100))) = _
    rw [if_neg hTne]
  have hshare : (keys.map (mkGMRow t.rows T)).filterMap
      (fun r => r.volume_share_pct) =
      keys.map (fun k => roundQ 2 (gradeVolume t.rows k / T * 100)) := by
    rw [List.filterMap_map]
    exact filterMap_eq_map_of_some hcell keys
  have hxsum : (keys.map (fun k => gradeVolume t.rows k / T * 100)).sum = 100 := by
    have hring : (keys.map (fun k => gradeVolume t.rows k / T * 100)) =
        keys.map (fun k => gradeVolume t.rows k * (100 / T)) := by
      apply List.map_congr_left
      intro k _
      ring
    rw [hring, List.sum_map_mul_right]
    rw [← hT]
    field_simp
  constructor
  · rw [hshare]
    simp
  · rw [hshare]
    have hm : keys.map (fun k => roundQ 2 (gradeVolume t.rows k / T * 100)) =
        (keys.map (fun k => gradeVolume t.rows k / T * 100)).map (roundQ 2) := by
      rw [List.map_map]
      rfl
    rw [hm]
    have hb := abs_sum_map_roundQ_sub
      (keys.map (fun k => gradeVolume t.rows k / T * 100))
    rw [hxsum] at hb
    simpa using hb

/-- Witness for C6 at the concrete two-grade source table. -/
theorem volume_shares_sum_to_100_witness :
    (((calculate_grade_metrics gmSrcTable).2.getD []).filterMap
        (fun r => r.volume_share_pct)).length =
      ((calculate_grade_metrics gmSrcTable).2.getD []).length ∧
    |(((calculate_grade_metrics gmSrcTable).2.getD []).filterMap
        (fun r => r.volume_share_pct)).sum - 100| ≤
      (((calculate_grade_metrics gmSrcTable).2.getD []).length : ℚ) * (1/200) :=
  volume_shares_sum_to_100 gmSrcTable ((calculate_grade_metrics gmSrcTable).2.getD [])
    (by with_unfolding_all rfl) (by with_unfolding_all decide)
    (by with_unfolding_all decide)

/-! Scale invariance of the correlation in its first coordinate. -/

theorem meanFst_scale (l : List (ℚ × ℚ)) :
    meanFst (l.map (fun q => (q.1 * 100, q.2))) = meanFst l * 100 := by
  unfold meanFst
  rw [List.length_map, List.map_map]
  have hm : List.map (Prod.fst ∘ fun q : ℚ × ℚ => (q.1 * 100, q.2)) l =
      List.map (fun q : ℚ × ℚ => q.1 * 100) l :=
    List.map_congr_left (fun q _ => rfl)
  rw [hm, List.sum_map_mul_right]
  ring

theorem meanSnd_scale (l : List (ℚ × ℚ)) :
    meanSnd (l.map (fun q => (q.1 * 100, q.2))) = meanSnd l := by
  unfold meanSnd
  rw [List.length_map, List.map_map]
  have hm : List.map (Prod.snd ∘ fun q : ℚ × ℚ => (q.1 * 100, q.2)) l =
      List.map Prod.snd l :=
    List.map_congr_left (fun q _ => rfl)
  rw [hm]

theorem covSum_scale (l : List (ℚ × ℚ)) :
    covSum (l.map (fun q => (q.1 * 100, q.2))) = covSum l * 100 := by
  unfold covSum
  rw [List.map_map]
  have hcong : ∀ q ∈ l, ((fun p : ℚ × ℚ =>
      (p.1 - meanFst (l.map (fun q => (q.1 * 100, q.2)))) *
      (p.2 - meanSnd (l.map (fun q => (q.1 * 100, q.2))))) ∘
      (fun q : ℚ × ℚ => (q.1 * 100, q.2))) q =
      ((q.1 - meanFst l) * (q.2 - meanSnd l)) * 100 := by
    intro q _
    show (q.1 * 100 - meanFst (l.map (fun q => (q.1 * 100, q.2)))) *
      (q.2 - meanSnd (l.map (fun q => (q.1 * 100, q.2)))) = _
    rw [meanFst_scale, meanSnd_scale]
    ring
  rw [List.map_congr_left hcong, List.sum_map_mul_right]

theorem varFstSum_scale (l : List (ℚ × ℚ)) :
    varFstSum (l.map (fun q => (q.1 * 100, q.2))) = varFstSum l * 10000 := by
  unfold varFstSum
  rw [List.map_map]
  have hcong : ∀ q ∈ l, ((fun p : ℚ × ℚ =>
      (p.1 - meanFst (l.map (fun q => (q.1 * 100, q.2)))) ^ 2) ∘
      (fun q : ℚ × ℚ => (q.1 * 100, q.2))) q =
      ((q.1 - meanFst l) ^ 2) * 10000 := by
    intro q _
    show (q.1 * 100 - meanFst (l.map (fun q => (q.1 * 100, q.2)))) ^ 2 = _
    rw [meanFst_scale]
    ring
  rw [List.map_congr_left hcong, List.sum_map_mul_right]

theorem varSndSum_scale (l : List (ℚ × ℚ)) :
    varSndSum (l.map (fun q => (q.1 * 100, q.2))) = varSndSum l := by
  unfold varSndSum
  rw [List.map_map]
  have hcong : ∀ q ∈ l, ((fun p : ℚ × ℚ =>
      (p.2 - meanSnd (l.map (fun q => (q.1 * 100, q.2)))) ^ 2) ∘
      (fun q : ℚ × ℚ => (q.1 * 100, q.2))) q =
      (q.2 - meanSnd l) ^ 2 := by
    intro q _
    show (q.2 - meanSnd (l.map (fun q => (q.1 * 100, q.2)))) ^ 2 = _
    rw [meanSnd_scale]
  rw [List.map_congr_left hcong]

/-- Pearson correlation is invariant under scaling the first coordinate
by 100 (turning rates into percentages). -/
theorem pearson_scale (l : List (ℚ × ℚ)) :
    pearson (l.map (fun q => (q.1 * 100, q.2))) = pearson l := by
  unfold pearson
  rw [covSum_scale, varFstSum_scale, varSndSum_scale]
  push_cast
  rw [Real.sqrt_mul' _ (by norm_num : (0:ℝ) ≤ 10000)]
  rw [show Real.sqrt 10000 = 100 from by
    rw [show (10000:ℝ) = 100 ^ 2 from by norm_num,
      Real.sqrt_sq (by norm_num : (0:ℝ) ≤ 100)]]
  rw [show (covSum l : ℝ) * 100 = 100 * (covSum l : ℝ) from by ring]
  rw [show Real.sqrt (varFstSum l : ℝ) * 100 * Real.sqrt (varSndSum l : ℝ) =
    100 * (Real.sqrt (varFstSum l : ℝ) * Real.sqrt (varSndSum l : ℝ)) from by ring]
  exact mul_div_mul_left _ _ (by norm_num)

/-! Properties of the idxmin and idxmax models. -/

theorem firstMinBy_none_forall {α : Type _} {f : α → Option ℚ} :
    ∀ {l : List α}, firstMinBy f l = none → ∀ a ∈ l, f a = none
  | [], _, a, ha => by cases ha
  | x :: xs, h, a, ha => by
    unfold firstMinBy at h
    cases hfx : f x with
    | none =>
      rw [hfx] at h
      rcases List.mem_cons.mp ha with rfl | ha2
      · exact hfx
      · exact firstMinBy_none_forall h a ha2
    | some v =>
      rw [hfx] at h
      exfalso
      cases hm : firstMinBy f xs with
      | none => rw [hm] at h; dsimp only at h; cases h
      | some y =>
        rw [hm] at h
        dsimp only at h
        cases hfy : f y with
        | none => rw [hfy] at h; dsimp only at h; cases h
        | some w =>
          rw [hfy] at h
          dsimp only at h
          split at h <;> cases h

theorem firstMaxBy_none_forall {α : Type _} {f : α → Option ℚ} :
    ∀ {l : List α}, firstMaxBy f l = none → ∀ a ∈ l, f a = none
  | [], _, a, ha => by cases ha
  | x :: xs, h, a, ha => by
    unfold firstMaxBy at h
    cases hfx : f x with
    | none =>
      rw [hfx] at h
      rcases List.mem_cons.mp ha with rfl | ha2
      · exact hfx
      · exact firstMaxBy_none_forall h a ha2
    | some v =>
      rw [hfx] at h
      exfalso
      cases hm : firstMaxBy f xs with
      | none => rw [hm] at h; dsimp only at h; cases h
      | some y =>
        rw [hm] at h
        dsimp only at h
        cases hfy : f y with
        | none => rw [hfy] at h; dsimp only at h; cases h
        | some w =>
          rw [hfy] at h
          dsimp only at h
          split at h <;> cases h

theorem firstMinBy_spec {α : Type _} (f : α → Option ℚ) :
    ∀ (l : List α) (y : α), firstMinBy f l = some y →
      y ∈ l ∧ ∃ q, f y = some q ∧ ∀ z ∈ l, ∀ w, f z = some w → q ≤ w := by
  intro l
  induction l with
  | nil => intro y h; exact absurd h (by simp [firstMinBy])
  | cons x xs ih =>
    intro y h
    unfold firstMinBy at h
    cases hfx : f x with
    | none =>
      rw [hfx] at h
      obtain ⟨hy, q, hq, hmin⟩ := ih y h
      refine ⟨List.mem_cons_of_mem _ hy, q, hq, ?_⟩
      intro z hz w hw
      rcases List.mem_cons.mp hz with rfl | hz
      · rw [hfx] at hw; cases hw
      · exact hmin z hz w hw
    | some v =>
      rw [hfx] at h
      cases hm : firstMinBy f xs with
      | none =>
        rw [hm] at h
        dsimp only at h
        simp only [Option.some.injEq] at h
        subst h
        refine ⟨List.mem_cons_self _ _, v, hfx, ?_⟩
        intro z hz w hw
        rcases List.mem_cons.mp hz with rfl | hz
        · rw [hfx] at hw
          injection hw with hw
          exact le_of_eq hw
        · rw [firstMinBy_none_forall hm z hz] at hw; cases hw
      | some y0 =>
        rw [hm] at h
        dsimp only at h
        obtain ⟨hy0m, q0, hq0, hmin0⟩ := ih y0 hm
        cases hfy : f y0 with
        | none => rw [hfy] at hq0; cases hq0
        | some w0 =>
          rw [hfy] at h
          dsimp only at h
          rw [hfy] at hq0
          injection hq0 with hq0eq
          subst hq0eq
          split at h
          · rename_i hlt
            simp only [Option.some.injEq] at h
            subst h
            refine ⟨List.mem_cons_of_mem _ hy0m, w0, hfy, ?_⟩
            intro z hz w hw
            rcases List.mem_cons.mp hz with rfl | hz
            · rw [hfx] at hw
              injection hw with hw
              subst hw
              exact le_of_lt hlt
            · exact hmin0 z hz w hw
          · rename_i hge
            simp only [Option.some.injEq] at h
            subst h
            refine ⟨List.mem_cons_self _ _, v, hfx, ?_⟩
            intro z hz w hw
            rcases List.mem_cons.mp hz with rfl | hz
            · rw [hfx] at hw
              injection hw with hw
              exact le_of_eq hw
            · exact le_trans (le_of_not_lt hge) (hmin0 z hz w hw)

theorem firstMaxBy_spec {α : Type _} (f : α → Option ℚ) :
    ∀ (l : List α) (y : α), firstMaxBy f l = some y →
      y ∈ l ∧ ∃ q, f y = some q ∧ ∀ z ∈ l, ∀ w, f z = some w → w ≤ q := by
  intro l
  induction l with
  | nil => intro y h; exact absurd h (by simp [firstMaxBy])
  | cons x xs ih =>
    intro y h
    unfold firstMaxBy at h
    cases hfx : f x with
    | none =>
      rw [hfx] at h
      obtain ⟨hy, q, hq, hmax⟩ := ih y h
      refine ⟨List.mem_cons_of_mem _ hy, q, hq, ?_⟩
      intro z hz w hw
      rcases List.mem_cons.mp hz with rfl | hz
      · rw [hfx] at hw; cases hw
      · exact hmax z hz w hw
    | some v =>
      rw [hfx] at h
      cases hm : firstMaxBy f xs with
      | none =>
        rw [hm] at h
        dsimp only at h
        simp only [Option.some.injEq] at h
        subst h
        refine ⟨List.mem_cons_self _ _, v, hfx, ?_⟩
        intro z hz w hw
        rcases List.mem_cons.mp hz with rfl | hz
        · rw [hfx] at hw
          injection hw with hw
          exact le_of_eq hw.symm
        · rw [firstMaxBy_none_forall hm z hz] at hw; cases hw
      | some y0 =>
        rw [hm] at h
        dsimp only at h
        obtain ⟨hy0m, q0, hq0, hmax0⟩ := ih y0 hm
        cases hfy : f y0 with
        | none => rw [hfy] at hq0; cases hq0
        | some w0 =>
          rw [hfy] at h
          dsimp only at h
          rw [hfy] at hq0
          injection hq0 with hq0eq
          subst hq0eq
          split at h
          · rename_i hlt
            simp only [Option.some.injEq] at h
            subst h
            refine ⟨List.mem_cons_of_mem _ hy0m, w0, hfy, ?_⟩
            intro z hz w hw
            rcases List.mem_cons.mp hz with rfl | hz
            · rw [hfx] at hw
              injection hw with hw
              subst hw
              exact le_of_lt hlt
            · exact hmax0 z hz w hw
          · rename_i hge
            simp only [Option.some.injEq] at h
            subst h
            refine ⟨List.mem_cons_self _ _, v, hfx, ?_⟩
            intro z hz w hw
            rcases List.mem_cons.mp hz with rfl | hz
            · rw [hfx] at hw
              injection hw with hw
              exact le_of_eq hw.symm
            · exact le_trans (hmax0 z hz w hw) (le_of_not_lt hge)

/-! Exactness of the percentage rounding on already-rounded rates. -/

theorem roundHalfEven_intCast (j : ℤ) : roundHalfEven (j : ℚ) = j := by
  unfold roundHalfEven
  dsimp only
  rw [Int.floor_intCast, sub_self]
  norm_num

theorem roundQ_two_intDiv (j : ℤ) : roundQ 2 ((j : ℚ) / 100) = (j : ℚ) / 100 := by
  unfold roundQ
  have h : ((j : ℚ) / 100) * 10 ^ 2 = (j : ℚ) := by
    rw [show ((10 : ℚ) ^ 2) = 100 from by norm_num]
    field_simp
  rw [h, roundHalfEven_intCast]
  norm_num

theorem roundQ_four_mul_100 (m : ℚ) :
    roundQ 2 (roundQ 4 m * 100) = roundQ 4 m * 100 := by
  have h : roundQ 4 m * 100 = ((roundHalfEven (m * 10 ^ 4) : ℤ) : ℚ) / 100 := by
    unfold roundQ
    field_simp
    ring
  rw [h, roundQ_two_intDiv]

/-- Rows produced by `calculate_grade_metrics` are well formed. -/
theorem calculate_grade_metrics_wf {t : Table} {gm : List GMRow}
    (hgm : (calculate_grade_metrics t).2 = some gm) : ∀ r ∈ gm, GMWf r := by
  unfold calculate_grade_metrics at hgm
  dsimp only at hgm
  split at hgm
  swap
  · exact absurd hgm (by simp)
  simp only [Option.some.injEq] at hgm
  subst hgm
  intro r hr
  obtain ⟨k, _, rfl⟩ := List.mem_map.mp hr
  unfold mkGMRow GMWf
  dsimp only
  cases hme : meanOpt (defaultsOf (gradeGroup t.rows k)) with
  | none => left; exact ⟨rfl, rfl⟩
  | some m =>
    right
    refine ⟨roundQ 4 m, rfl, ?_⟩
    show some (roundQ 2 (roundQ 4 m * 100)) = _
    rw [roundQ_four_mul_100]

/-- On a well-formed table the percentage pairs are the rate pairs with
the first coordinate scaled by 100. -/
theorem pctPairs_eq_scaled :
    ∀ (gm : List GMRow), (∀ r ∈ gm, GMWf r) →
      pctPairs gm = (corrPairs gm).map (fun q => (q.1 * 100, q.2))
  | [], _ => rfl
  | r :: rs, hwf => by
    have hr := hwf r (List.mem_cons_self _ _)
    have hrs := pctPairs_eq_scaled rs (fun z hz => hwf z (List.mem_cons_of_mem _ hz))
    unfold pctPairs corrPairs
    rw [List.filterMap_cons, List.filterMap_cons]
    have hp : pctPairs rs = (rs.filterMap (fun r =>
        match r.default_rate_pct, r.avg_interest_rate with
        | some p, some b => some (p, b)
        | _, _ => none)) := rfl
    have hc : corrPairs rs = (rs.filterMap (fun r =>
        match r.default_rate, r.avg_interest_rate with
        | some a, some b => some (a, b)
        | _, _ => none)) := rfl
    rcases hr with ⟨hdr, hpct⟩ | ⟨d, hdr, hpct⟩
    · rw [hdr, hpct]
      dsimp only
      rw [← hp, ← hc, hrs]
    · rw [hdr, hpct]
      cases hair : r.avg_interest_rate with
      | none =>
        dsimp only
        rw [← hp, ← hc, hrs]
      | some b =>
        dsimp only
        rw [List.map_cons]
        rw [← hp, ← hc, hrs]

/-- C5: on a Grade Metrics table produced by the grade aggregation with
at least two grades and at least one row with defined rate and
percentage, the analysis returns the Pearson correlation between the
per-grade outcome-rate percentage and the average interest rate, writes
each risk premium as average interest rate minus outcome-rate
percentage, and reports as worst and best tradeoff grades of rows
attaining the minimal and maximal premium. -/
theorem risk_return_analysis_spec (t : Table) (gm : List GMRow)
    (hgm : (calculate_grade_metrics t).2 = some gm)
    (h2 : 2 ≤ gm.length)
    (hdef : ∃ r ∈ gm, r.avg_interest_rate ≠ none ∧ r.default_rate_pct ≠ none) :
    ∃ (gmOut : List GMRow) (a : RiskAnalysis),
      analyze_risk_return_relationship gm = (gmOut, some a) ∧
      a.risk_return_correlation = pearson (pctPairs gm) ∧
      (∀ z ∈ gmOut, ∀ x p, z.avg_interest_rate = some x →
        z.default_rate_pct = some p → z.risk_premium = some (x - p)) ∧
      (∃ w ∈ gmOut, a.worst_risk_return_grade = w.grade ∧
        ∃ q, w.risk_premium = some q ∧
          ∀ z ∈ gmOut, ∀ u, z.risk_premium = some u → q ≤ u) ∧
      (∃ b ∈ gmOut, a.best_risk_return_grade = b.grade ∧
        ∃ q, b.risk_premium = some q ∧
          ∀ z ∈ gmOut, ∀ u, z.risk_premium = some u → u ≤ q) := by
  obtain ⟨r, hr, hair, hpct⟩ := hdef
  obtain ⟨x0, hx0⟩ := Option.ne_none_iff_exists'.mp hair
  obtain ⟨p0, hp0⟩ := Option.ne_none_iff_exists'.mp hpct
  have hprem : (setRiskPremium r).risk_premium = some (x0 - p0) := by
    unfold setRiskPremium
    dsimp only
    rw [hx0, hp0]
  have hmem : setRiskPremium r ∈ gm.map setRiskPremium :=
    List.mem_map_of_mem _ hr
  cases hminE : firstMinBy (fun z : GMRow => z.risk_premium)
      (gm.map setRiskPremium) with
  | none =>
    have hn := firstMinBy_none_forall hminE _ hmem
    rw [hprem] at hn
    exact Option.noConfusion hn
  | some w =>
  cases hmaxE : firstMaxBy (fun z : GMRow => z.risk_premium)
      (gm.map setRiskPremium) with
  | none =>
    have hn := firstMaxBy_none_forall hmaxE _ hmem
    rw [hprem] at hn
    exact Option.noConfusion hn
  | some b =>
  obtain ⟨hwm, qw, hqw, hwmin⟩ := firstMinBy_spec _ _ _ hminE
  obtain ⟨hbm, qb, hqb, hbmax⟩ := firstMaxBy_spec _ _ _ hmaxE
  refine ⟨gm.map setRiskPremium,
    { risk_return_correlation := pearson (corrPairs gm)
      avg_risk_premium :=
        meanOpt ((gm.map setRiskPremium).filterMap (fun z => z.risk_premium))
      worst_risk_return_grade := w.grade
      best_risk_return_grade := b.grade }, ?_, ?_, ?_, ?_, ?_⟩
  · unfold analyze_risk_return_relationship
    dsimp only
    rw [hminE, hmaxE]
  · dsimp only
    rw [pctPairs_eq_scaled gm (calculate_grade_metrics_wf hgm), pearson_scale]
  · intro z hz x p hx hp
    obtain ⟨z0, _, rfl⟩ := List.mem_map.mp hz
    have hx' : z0.avg_interest_rate = some x := hx
    have hp' : z0.default_rate_pct = some p := hp
    unfold setRiskPremium
    dsimp only
    rw [hx', hp']
  · exact ⟨w, hwm, rfl, qw, hqw, hwmin⟩
  · exact ⟨b, hbm, rfl, qb, hqb, hbmax⟩

set_option maxRecDepth 100000 in
/-- Witness for C5 at the concrete two-grade source table. -/
theorem risk_return_analysis_spec_witness :
    ∃ (gmOut : List GMRow) (a : RiskAnalysis),
      analyze_risk_return_relationship
          ((calculate_grade_metrics gmSrcTable).2.getD []) = (gmOut, some a) ∧
      a.risk_return_correlation =
        pearson (pctPairs ((calculate_grade_metrics gmSrcTable).2.getD [])) ∧
      (∀ z ∈ gmOut, ∀ x p, z.avg_interest_rate = some x →
        z.default_rate_pct = some p → z.risk_premium = some (x - p)) ∧
      (∃ w ∈ gmOut, a.worst_risk_return_grade = w.grade ∧
        ∃ q, w.risk_premium = some q ∧
          ∀ z ∈ gmOut, ∀ u, z.risk_premium = some u → q ≤ u) ∧
      (∃ b ∈ gmOut, a.best_risk_return_grade = b.grade ∧
        ∃ q, b.risk_premium = some q ∧
          ∀ z ∈ gmOut, ∀ u, z.risk_premium = some u → u ≤ q) :=
  risk_return_analysis_spec gmSrcTable
    ((calculate_grade_metrics gmSrcTable).2.getD [])
    (by with_unfolding_all rfl) (by with_unfolding_all decide)
    (by with_unfolding_all decide)

/-! Characterizations of the cleaning steps, used for the idempotence
theorem. -/

theorem filter_all {α : Type _} {p : α → Bool} :
    ∀ (l : List α), (∀ a ∈ l, p a = true) → l.filter p = l
  | [], _ => rfl
  | x :: xs, h => by
    rw [List.filter_cons, if_pos (h x (List.mem_cons_self _ _)),
      filter_all xs (fun a ha => h a (List.mem_cons_of_mem _ ha))]

theorem dropnaCritical_some {t t' : Table} (h : dropnaCritical t = some t') :
    t.has_grade = true ∧ t.has_loan_status = true ∧
    t' = { t with rows := t.rows.filter hasCriticalFields } := by
  unfold dropnaCritical at h
  split at h
  · rename_i hc
    simp only [Bool.and_eq_true] at hc
    simp only [Option.some.injEq] at h
    exact ⟨hc.1, hc.2, h.symm⟩
  · exact absurd h (by simp)

theorem filterCompleted_some {t t' : Table} (h : filterCompleted t = some t') :
    t.has_loan_status = true ∧
    t' = { t with rows := t.rows.filter isCompletedRow } := by
  unfold filterCompleted at h
  split at h
  · rename_i hc
    simp only [Option.some.injEq] at h
    exact ⟨hc, h.symm⟩
  · exact absurd h (by simp)

theorem clean_interest_rate_some {t t' : Table}
    (h : clean_interest_rate t = some t') :
    t.has_int_rate = true ∧ t'.has_int_rate = true ∧
    t'.int_rate_is_object = false ∧
    t'.has_grade = t.has_grade ∧ t'.has_loan_status = t.has_loan_status ∧
    t'.has_emp_length = t.has_emp_length ∧
    t'.has_annual_inc = t.has_annual_inc ∧
    t'.has_emp_length_years = t.has_emp_length_years ∧
    t'.has_is_default = t.has_is_default ∧
    t'.rows.length = t.rows.length ∧
    (∀ x ∈ t'.rows, ∃ y ∈ t.rows, ∃ a b,
      x = { y with int_rate := a, int_rate_str := b }) := by
  unfold clean_interest_rate at h
  split at h
  · exact absurd h (by simp)
  · rename_i hhas
    have hhas' : t.has_int_rate = true := by
      simp only [Bool.not_eq_true'] at hhas
      simpa using hhas
    split at h
    · rename_i hobj
      cases hm : mapOpt (fun r =>
          match r.int_rate_str with
          | none => some { r with int_rate := none, int_rate_str := none }
          | some s => (pyFloat (rstripPercent s)).map (fun v =>
              { r with int_rate := PyFloat.toCell v, int_rate_str := none })) t.rows with
      | none => rw [hm] at h; exact absurd h (by simp)
      | some rs =>
        rw [hm] at h
        simp only [Option.some.injEq] at h
        subst h
        refine ⟨hhas', hhas', rfl, rfl, rfl, rfl, rfl, rfl, rfl,
          mapOpt_length hm, ?_⟩
        intro x hx
        obtain ⟨y, hy, hfy⟩ := mapOpt_mem_right hm x hx
        cases hys : y.int_rate_str with
        | none =>
          rw [hys] at hfy
          dsimp only at hfy
          simp only [Option.some.injEq] at hfy
          exact ⟨y, hy, none, none, hfy.symm⟩
        | some sv =>
          rw [hys] at hfy
          dsimp only at hfy
          cases hq : pyFloat (rstripPercent sv) with
          | none => rw [hq] at hfy; exact absurd hfy (by simp)
          | some v =>
            rw [hq] at hfy
            simp only [Option.map_some', Option.some.injEq] at hfy
            exact ⟨y, hy, PyFloat.toCell v, none, hfy.symm⟩
    · rename_i hobj
      have hobj' : t.int_rate_is_object = false := by
        simpa using hobj
      simp only [Option.some.injEq] at h
      subst h
      refine ⟨hhas', hhas', hobj', rfl, rfl, rfl, rfl, rfl, rfl, rfl, ?_⟩
      intro x hx
      exact ⟨x, hx, x.int_rate, x.int_rate_str, rfl⟩

theorem interest_step_some {t t' : Table}
    (h : (if t.has_int_rate then clean_interest_rate t else some t) = some t') :
    t'.has_int_rate = t.has_int_rate ∧
    (t'.has_int_rate = true → t'.int_rate_is_object = false) ∧
    t'.has_grade = t.has_grade ∧ t'.has_loan_status = t.has_loan_status ∧
    t'.has_emp_length = t.has_emp_length ∧
    t'.has_annual_inc = t.has_annual_inc ∧
    t'.has_emp_length_years = t.has_emp_length_years ∧
    t'.has_is_default = t.has_is_default ∧
    t'.rows.length = t.rows.length ∧
    (∀ x ∈ t'.rows, ∃ y ∈ t.rows, ∃ a b,
      x = { y with int_rate := a, int_rate_str := b }) := by
  split at h
  · obtain ⟨h1, h2, h3, h4, h5, h6, h7, h8, h9, h10, h11⟩ :=
      clean_interest_rate_some h
    exact ⟨h2.trans h1.symm, fun _ => h3, h4, h5, h6, h7, h8, h9, h10, h11⟩
  · rename_i hno
    simp only [Option.some.injEq] at h
    subst h
    refine ⟨rfl, ?_, rfl, rfl, rfl, rfl, rfl, rfl, rfl, ?_⟩
    · intro hcon
      exact absurd hcon (by simpa using hno)
    · intro x hx
      exact ⟨x, hx, x.int_rate, x.int_rate_str, rfl⟩

theorem add_default_indicator_some {t t' : Table}
    (h : add_default_indicator t = some t') :
    t.has_loan_status = true ∧
    t' = { t with
      has_is_default := true
      rows := t.rows.map setDefaultIndicator } := by
  unfold add_default_indicator at h
  split at h
  · exact absurd h (by simp)
  · rename_i hc
    simp only [Option.some.injEq] at h
    refine ⟨?_, h.symm⟩
    simp only [Bool.not_eq_true'] at hc
    simpa using hc

theorem clean_employment_length_some {t t' : Table}
    (h : clean_employment_length t = some t') :
    t.has_emp_length = true ∧
    t'.has_grade = t.has_grade ∧ t'.has_loan_status = t.has_loan_status ∧
    t'.has_int_rate = t.has_int_rate ∧
    t'.int_rate_is_object = t.int_rate_is_object ∧
    t'.has_emp_length = t.has_emp_length ∧
    t'.has_annual_inc = t.has_annual_inc ∧
    t'.has_is_default = t.has_is_default ∧
    t'.rows.length = t.rows.length ∧
    (∀ z ∈ t.rows, (parse_emp_length z.emp_length).isSome = true) := by
  unfold clean_employment_length at h
  split at h
  · exact absurd h (by simp)
  · rename_i hc
    have hc' : t.has_emp_length = true := by
      simp only [Bool.not_eq_true'] at hc
      simpa using hc
    cases hm : mapOpt (fun r =>
        (parse_emp_length r.emp_length).map (fun v =>
          { r with emp_length_years := v })) t.rows with
    | none => rw [hm] at h; exact absurd h (by simp)
    | some rs =>
      rw [hm] at h
      simp only [Option.map_some', Option.some.injEq] at h
      subst h
      refine ⟨hc', rfl, rfl, rfl, rfl, rfl, rfl, rfl, mapOpt_length hm, ?_⟩
      intro z hz
      obtain ⟨b, _, hfb⟩ := mapOpt_mem_left hm z hz
      cases hp : parse_emp_length z.emp_length with
      | none => rw [hp] at hfb; cases hfb
      | some v => rfl

theorem emp_step_some {t t' : Table}
    (h : (if t.has_emp_length then clean_employment_length t else some t) = some t') :
    t'.has_grade = t.has_grade ∧ t'.has_loan_status = t.has_loan_status ∧
    t'.has_int_rate = t.has_int_rate ∧
    t'.int_rate_is_object = t.int_rate_is_object ∧
    t'.has_emp_length = t.has_emp_length ∧
    t'.has_annual_inc = t.has_annual_inc ∧
    t'.rows.length = t.rows.length ∧
    (t.has_emp_length = true →
      ∀ z ∈ t.rows, (parse_emp_length z.emp_length).isSome = true) := by
  split at h
  · obtain ⟨h0, h1, h2, h3, h4, h5, h6, h7, h8, h9⟩ :=
      clean_employment_length_some h
    exact ⟨h1, h2, h3, h4, h5, h6, h8, fun _ => h9⟩
  · rename_i hno
    simp only [Option.some.injEq] at h
    subst h
    refine ⟨rfl, rfl, rfl, rfl, rfl, rfl, rfl, ?_⟩
    intro hcon
    exact absurd hcon (by simpa using hno)

theorem imputeIncome_table_shape (t : Table) :
    ∃ rs, imputeIncome t = { t with rows := rs } ∧
      rs.length = t.rows.length := by
  unfold imputeIncome
  split
  · exact ⟨_, rfl, by simp⟩
  · exact ⟨t.rows, rfl, rfl⟩

theorem imputeEmpYears_table_shape (t : Table) :
    ∃ rs, imputeEmpYears t = { t with rows := rs } ∧
      rs.length = t.rows.length := by
  unfold imputeEmpYears
  split
  · exact ⟨_, rfl, by simp⟩
  · exact ⟨t.rows, rfl, rfl⟩

theorem handle_missing_values_some {t t' : Table}
    (h : handle_missing_values t = some t') :
    (t.has_annual_inc && !t.has_grade) = false ∧
    ∃ rs, t' = { t with rows := rs } ∧ rs.length = t.rows.length := by
  unfold handle_missing_values at h
  split at h
  · exact absurd h (by simp)
  · rename_i hc
    simp only [Option.some.injEq] at h
    subst h
    refine ⟨by simpa using hc, ?_⟩
    obtain ⟨rs1, h1, hl1⟩ := imputeIncome_table_shape t
    obtain ⟨rs2, h2, hl2⟩ := imputeEmpYears_table_shape (imputeIncome t)
    rw [h1] at h2 hl2
    exact ⟨rs2, by rw [h1, h2], by rw [hl2]; simpa using hl1⟩

theorem isCompletedRow_iff {r : Row} :
    isCompletedRow r = true ↔
      ∃ s, r.loan_status = some s ∧ COMPLETED_STATUSES.contains s = true := by
  cases hs : r.loan_status <;> simp [isCompletedRow, hs]

theorem hasCriticalFields_iff {r : Row} :
    hasCriticalFields r = true ↔
      r.grade ≠ none ∧ r.loan_status ≠ none := by
  unfold hasCriticalFields
  cases hg : r.grade <;> cases hs : r.loan_status <;> simp [hg, hs]

/-- A successful cleaning run establishes the invariant. -/
theorem clean_inv {df : Table} {focus : Option (List String)} {out : Table}
    (h : clean_lending_club_data df focus = some out) :
    CleanedInv (focus.getD ESSENTIAL_COLUMNS) out := by
  unfold clean_lending_club_data at h
  set fc := focus.getD ESSENTIAL_COLUMNS with hfc
  set t1 := projectColumns df fc with ht1
  rw [Option.bind_eq_some] at h
  obtain ⟨t2, h2, h⟩ := h
  rw [Option.bind_eq_some] at h
  obtain ⟨t3, h3, h⟩ := h
  rw [Option.bind_eq_some] at h
  obtain ⟨t4, h4, h⟩ := h
  rw [Option.bind_eq_some] at h
  obtain ⟨t5, h5, h⟩ := h
  rw [Option.bind_eq_some] at h
  obtain ⟨t6, h6, h7⟩ := h
  obtain ⟨hg1, hs1, ht2⟩ := dropnaCritical_some h2
  obtain ⟨-, ht3⟩ := filterCompleted_some h3
  obtain ⟨e41, e42, e43, e44, e45, e46, e47, e48, e49, e4shape⟩ :=
    interest_step_some h4
  obtain ⟨-, ht5⟩ := add_default_indicator_some h5
  obtain ⟨f41, f42, f43, f44, f45, f46, f47, f48⟩ := emp_step_some h6
  have hshape6 : ∀ x ∈ t6.rows, ∃ y ∈ t5.rows, ∃ v,
      x = { y with emp_length_years := v } := by
    have h6c := h6
    split at h6c
    · exact clean_employment_length_shape h6c
    · simp only [Option.some.injEq] at h6c
      subst h6c
      intro x hx
      exact ⟨x, hx, x.emp_length_years, rfl⟩
  have hshape7 := handle_missing_values_shape h7
  obtain ⟨-, rs, hout, -⟩ := handle_missing_values_some h7
  -- flag bookkeeping
  have hkg : t1.has_grade = (df.has_grade && fc.contains "grade") := rfl
  have hks : t1.has_loan_status = (df.has_loan_status && fc.contains "loan_status") := rfl
  have hgmem : fc.contains "grade" = true := by
    rw [hkg] at hg1
    simp only [Bool.and_eq_true] at hg1
    exact hg1.2
  have hsmem : fc.contains "loan_status" = true := by
    rw [hks] at hs1
    simp only [Bool.and_eq_true] at hs1
    exact hs1.2
  have hg3 : t3.has_grade = true := by rw [ht3, ht2]; exact hg1
  have hs3 : t3.has_loan_status = true := by rw [ht3, ht2]; exact hs1
  have hg5 : t5.has_grade = true := by rw [ht5]; rw [e43]; exact hg3
  have hs5 : t5.has_loan_status = true := by rw [ht5]; rw [e44]; exact hs3
  have hgout : out.has_grade = true := by
    rw [hout]
    show t6.has_grade = true
    rw [f41]; exact hg5
  have hsout : out.has_loan_status = true := by
    rw [hout]
    show t6.has_loan_status = true
    rw [f42]; exact hs5
  refine ⟨hgout, hgmem, hsout, hsmem, ?_, ?_⟩
  · -- numeric interest-rate dtype after cleaning
    intro hir
    have hir6 : t6.has_int_rate = true := by rw [hout] at hir; exact hir
    have hir5 : t5.has_int_rate = true := by rw [f43] at hir6; exact hir6
    have hir4 : t4.has_int_rate = true := by rw [ht5] at hir5; exact hir5
    have hfl4 : t4.int_rate_is_object = false := e42 hir4
    have hfl5 : t5.int_rate_is_object = false := by rw [ht5]; exact hfl4
    have hfl6 : t6.int_rate_is_object = false := by rw [f44]; rw [ht5]; exact hfl4
    rw [hout]
    exact hfl6
  · -- per-row facts
    intro r hr
    obtain ⟨y6, hy6, v7, w7, hr7⟩ := hshape7 r hr
    obtain ⟨y5, hy5, v6, hy6e⟩ := hshape6 y6 hy6
    -- t5 rows come from t4 rows via the indicator map
    have hy5' : ∃ y4 ∈ t4.rows, y5 = setDefaultIndicator y4 := by
      rw [ht5] at hy5
      simp only [List.mem_map] at hy5
      obtain ⟨y4, hy4, hEq⟩ := hy5
      exact ⟨y4, hy4, hEq.symm⟩
    obtain ⟨y4, hy4, hy5e⟩ := hy5'
    obtain ⟨y3, hy3, a4, b4, hy4e⟩ := e4shape y4 hy4
    have hy3' : y3 ∈ t2.rows ∧ isCompletedRow y3 = true := by
      rw [ht3] at hy3
      exact List.mem_filter.mp hy3
    have hy2' : y3 ∈ t1.rows.filter hasCriticalFields := by
      rw [ht2] at hy3'
      exact hy3'.1
    have hcrit : hasCriticalFields y3 = true := (List.mem_filter.mp hy2').2
    obtain ⟨hgnn, -⟩ := hasCriticalFields_iff.mp hcrit
    obtain ⟨s, hsv, hsin⟩ := isCompletedRow_iff.mp hy3'.2
    -- transport the cell values forward
    have hgr : r.grade = y3.grade := by
      rw [hr7, hy6e, hy5e, hy4e]
      rfl
    have hst : r.loan_status = y3.loan_status := by
      rw [hr7, hy6e, hy5e, hy4e]
      rfl
    have hemp : r.emp_length = y5.emp_length := by
      rw [hr7, hy6e]
    refine ⟨by rw [hgr]; exact hgnn, ⟨s, by rw [hst]; exact hsv, hsin⟩, ?_⟩
    intro hempcol
    have hemp5 : t5.has_emp_length = true := by
      have h1 : t6.has_emp_length = true := by rw [hout] at hempcol; exact hempcol
      rw [f45] at h1
      exact h1
    have := f48 hemp5 y5 hy5
    rw [hemp]
    exact this

theorem projectColumns_row_facts (t : Table) (fc : List String) :
    (projectColumns t fc).rows.length = t.rows.length ∧
    ∀ x ∈ (projectColumns t fc).rows, ∃ r ∈ t.rows,
      x.grade = (if t.has_grade && fc.contains "grade" then r.grade else none) ∧
      x.loan_status = (if t.has_loan_status && fc.contains "loan_status"
        then r.loan_status else none) ∧
      x.emp_length = (if t.has_emp_length && fc.contains "emp_length"
        then r.emp_length else none) := by
  unfold projectColumns
  dsimp only
  constructor
  · simp
  · intro x hx
    simp only [List.mem_map] at hx
    obtain ⟨r, hr, rfl⟩ := hx
    exact ⟨r, hr, rfl, rfl, rfl⟩

/-- Re-running the pipeline on a table satisfying the invariant succeeds
and keeps every row. -/
theorem clean_of_inv {fc : List String} {out : Table}
    (inv : CleanedInv fc out) :
    ∃ out2, clean_lending_club_data out (some fc) = some out2 ∧
      out2.rows.length = out.rows.length := by
  obtain ⟨hlen1, hrows1⟩ := projectColumns_row_facts out fc
  set t1 := projectColumns out fc with ht1
  have hg1 : t1.has_grade = true := by
    show (out.has_grade && fc.contains "grade") = true
    rw [inv.grade_col, inv.grade_mem]; rfl
  have hs1 : t1.has_loan_status = true := by
    show (out.has_loan_status && fc.contains "loan_status") = true
    rw [inv.status_col, inv.status_mem]; rfl
  have hQ : ∀ x ∈ t1.rows, x.grade ≠ none ∧
      (∃ s, x.loan_status = some s ∧ COMPLETED_STATUSES.contains s = true) ∧
      (parse_emp_length x.emp_length).isSome = true := by
    intro x hx
    obtain ⟨r, hr, hgx, hsx, hex⟩ := hrows1 x hx
    obtain ⟨hg, ⟨s, hs, hsin⟩, hpe⟩ := inv.rows_ok r hr
    have hgk : (out.has_grade && fc.contains "grade") = true := by
      rw [inv.grade_col, inv.grade_mem]; rfl
    have hsk : (out.has_loan_status && fc.contains "loan_status") = true := by
      rw [inv.status_col, inv.status_mem]; rfl
    refine ⟨?_, ⟨s, ?_, hsin⟩, ?_⟩
    · rw [hgx, if_pos hgk]; exact hg
    · rw [hsx, if_pos hsk]; exact hs
    · by_cases hek : (out.has_emp_length && fc.contains "emp_length") = true
      · rw [hex, if_pos hek]
        have hcol : out.has_emp_length = true := by
          simp only [Bool.and_eq_true] at hek
          exact hek.1
        exact hpe hcol
      · rw [hex, if_neg hek]
        rfl
  have hall2 : ∀ x ∈ t1.rows, hasCriticalFields x = true := by
    intro x hx
    obtain ⟨hg, ⟨s, hs, -⟩, -⟩ := hQ x hx
    refine hasCriticalFields_iff.mpr ⟨hg, ?_⟩
    rw [hs]
    exact fun hcon => Option.noConfusion hcon
  have h2 : dropnaCritical t1 = some t1 := by
    unfold dropnaCritical
    rw [if_pos (by rw [hg1, hs1]; rfl)]
    rw [filter_all _ hall2]
  have hall3 : ∀ x ∈ t1.rows, isCompletedRow x = true := by
    intro x hx
    obtain ⟨-, ⟨s, hs, hsin⟩, -⟩ := hQ x hx
    exact isCompletedRow_iff.mpr ⟨s, hs, hsin⟩
  have h3 : filterCompleted t1 = some t1 := by
    unfold filterCompleted
    rw [if_pos hs1]
    rw [filter_all _ hall3]
  have h4 : (if t1.has_int_rate then clean_interest_rate t1 else some t1)
      = some t1 := by
    by_cases hk : t1.has_int_rate = true
    · rw [if_pos hk]
      have hkk : (out.has_int_rate && fc.contains "int_rate") = true := hk
      have hout_ir : out.has_int_rate = true := by
        simp only [Bool.and_eq_true] at hkk
        exact hkk.1
      have hfl : t1.int_rate_is_object = false := by
        show out.int_rate_is_object = false
        exact inv.ir_flag hout_ir
      unfold clean_interest_rate
      rw [if_neg (by simp [hk])]
      rw [if_neg (by simp [hfl])]
    · rw [if_neg hk]
  set t5 : Table :=
    { t1 with has_is_default := true, rows := t1.rows.map setDefaultIndicator }
    with ht5
  have h5 : add_default_indicator t1 = some t5 := by
    unfold add_default_indicator
    rw [if_neg (by simp [hs1])]
  have hQ5 : ∀ x ∈ t5.rows, (parse_emp_length x.emp_length).isSome = true := by
    intro x hx
    have hx' : x ∈ t1.rows.map setDefaultIndicator := hx
    simp only [List.mem_map] at hx'
    obtain ⟨y, hy, rfl⟩ := hx'
    exact (hQ y hy).2.2
  have h6 : ∃ t6, (if t5.has_emp_length then clean_employment_length t5
        else some t5) = some t6 ∧
      t6.rows.length = t5.rows.length ∧
      t6.has_annual_inc = t5.has_annual_inc ∧
      t6.has_grade = t5.has_grade := by
    by_cases hk : t5.has_emp_length = true
    · rw [if_pos hk]
      have hsome : (mapOpt (fun r =>
          (parse_emp_length r.emp_length).map (fun v =>
            { r with emp_length_years := v })) t5.rows).isSome = true := by
        apply mapOpt_isSome_of_forall
        intro r hr
        cases hp : parse_emp_length r.emp_length with
        | none =>
          have := hQ5 r hr
          rw [hp] at this
          cases this
        | some v => rfl
      obtain ⟨rs, hrs⟩ := Option.isSome_iff_exists.mp hsome
      refine ⟨{ t5 with rows := rs, has_emp_length_years := true }, ?_, ?_, rfl, rfl⟩
      · unfold clean_employment_length
        rw [if_neg (by simp [hk]; exact hk)]
        rw [hrs]
        rfl
      · show rs.length = t5.rows.length
        exact mapOpt_length hrs
    · rw [if_neg hk]
      exact ⟨t5, rfl, rfl, rfl, rfl⟩
  obtain ⟨t6, h6e, h6len, h6inc, h6g⟩ := h6
  have hg6 : t6.has_grade = true := by
    rw [h6g]
    show t1.has_grade = true
    exact hg1
  have h7 : handle_missing_values t6 =
      some (imputeEmpYears (imputeIncome t6)) := by
    unfold handle_missing_values
    rw [if_neg (by simp [hg6])]
  have hlen2 : (imputeEmpYears (imputeIncome t6)).rows.length =
      out.rows.length := by
    rw [imputeEmpYears_rows_length, imputeIncome_rows_length, h6len]
    show (t1.rows.map setDefaultIndicator).length = out.rows.length
    rw [List.length_map]
    exact hlen1
  refine ⟨imputeEmpYears (imputeIncome t6), ?_, hlen2⟩
  unfold clean_lending_club_data
  dsimp only [Option.getD]
  rw [← ht1]
  simp only [h2, h3, h4, h5, h6e, h7, Option.some_bind]

/-- C7: re-cleaning an already-cleaned table with the same focus-column
list succeeds and yields a table with no fewer rows (in fact exactly as
many). -/
theorem clean_idempotent_row_count (df : Table)
    (focus : Option (List String)) (out : Table)
    (h : clean_lending_club_data df focus = some out) :
    ∃ out2, clean_lending_club_data out focus = some out2 ∧
      out.rows.length ≤ out2.rows.length := by
  obtain ⟨out2, h2, hlen⟩ := clean_of_inv (clean_inv h)
  refine ⟨out2, ?_, le_of_eq hlen.symm⟩
  cases focus with
  | none => exact h2
  | some fcv => exact h2

set_option maxRecDepth 100000 in
/-- Witness for C7: re-cleaning the cleaned scenario table. -/
theorem clean_idempotent_row_count_witness :
    ∃ out2, clean_lending_club_data cleanedScenario none = some out2 ∧
      cleanedScenario.rows.length ≤ out2.rows.length :=
  clean_idempotent_row_count rawScenarioTable none cleanedScenario
    (by with_unfolding_all rfl)

end LendingClub
